import Mathlib

/-!
Verification of the SinePatre resource navigator (`api/navigate.js` and its
sibling revisions).  The JavaScript handler is shallowly embedded: strings are
`String` (lists of characters), JS arrays are `List`, the process-wide catalog
cache is threaded explicitly, and the two network collaborators (the catalog
fetch and the OpenAI calls) are oracles passed in as arguments while the
handler records which of them it actually invoked in an effect trace.

Namespaces:
* `SP`  — code shared verbatim between revisions (string normalisation, the
  crisis regular expressions, the CSV parser, the catalog loader/cache, and a
  stable descending sort modelling `Array.prototype.sort` with the
  `(a, b) => b.s - a.s` comparator).
* `Nav` — the top revision of `api/navigate.js` (lines 1-501 of the file).
* `P1`  — the first revision stored in `src/unnamed/part_001` (lines 1-424),
  the revision whose selection chain matches §4.5 of the specification.
-/

namespace SP

/-- JS `\w` character class (no unicode flag): `[A-Za-z0-9_]`. -/
def jsIsWordChar (c : Char) : Bool :=
  ('a' ≤ c && c ≤ 'z') || ('A' ≤ c && c ≤ 'Z') || ('0' ≤ c && c ≤ '9') || c = '_'

/-- JS `\s` class restricted to the characters that can actually occur in the
ASCII spreadsheet/chat payloads this service handles (space, tab, LF, CR,
vertical tab, form feed, NBSP and the two line separators). -/
def jsIsSpace (c : Char) : Bool :=
  c = ' ' || c = '\t' || c = '\n' || c = '\r' || c = '\x0b' || c = '\x0c' ||
  c = ' ' || c = ' ' || c = ' '

/-- JS line terminators, which `.` does not match in a regex without `/s`. -/
def jsIsLineTerm (c : Char) : Bool :=
  c = '\n' || c = '\r' || c = ' ' || c = ' '

def ofChars (l : List Char) : String := String.mk l

/-- `String.prototype.trim`: strip leading and trailing whitespace. -/
def trimChars (l : List Char) : List Char :=
  ((l.dropWhile jsIsSpace).reverse.dropWhile jsIsSpace).reverse

def jsTrim (s : String) : String := ofChars (trimChars s.data)

/-- `String.prototype.toLowerCase` (ASCII as used by this code base). -/
def jsToLower (s : String) : String := ofChars (s.data.map Char.toLower)

/-- `String.prototype.slice(0, n)` (code points stand in for UTF-16 units;
all the texts this handler slices are within the BMP). -/
def jsSliceTo (s : String) (n : Nat) : String := ofChars (s.data.take n)

/-- `Array.prototype.slice(-n)` for `n ≥ 1`: the last `n` elements. -/
def jsSliceLast {α : Type} (l : List α) (n : Nat) : List α :=
  l.drop (l.length - n)

/-- `String.prototype.startsWith` on character lists. -/
def startsWithSeq : List Char → List Char → Bool
  | [], _ => true
  | _ :: _, [] => false
  | a :: as, b :: bs => a = b && startsWithSeq as bs

/-- `String.prototype.includes` on character lists. -/
def containsSeq (needle : List Char) : List Char → Bool
  | [] => needle.isEmpty
  | c :: rest => startsWithSeq needle (c :: rest) || containsSeq needle rest

/-- `String.prototype.includes`. -/
def jsIncludes (s sub : String) : Bool := containsSeq sub.data s.data

/-- Replace each maximal run of whitespace by the single character `r`
(the `/\s+/g` replacement used by `normalize` and the header normaliser).
The boolean records whether the previous character was whitespace. -/
def replaceWsRuns (r : Char) : Bool → List Char → List Char
  | _, [] => []
  | prevWs, c :: rest =>
    if jsIsSpace c then
      if prevWs then replaceWsRuns r true rest
      else r :: replaceWsRuns r true rest
    else c :: replaceWsRuns r false rest

/-- `normalize` (identical in every revision):
lowercase, replace every character outside `\w` and `\s` by a space,
collapse whitespace runs to one space, trim. -/
def normalize (s : String) : String :=
  ofChars (trimChars (replaceWsRuns ' ' false
    (s.data.map (fun c =>
      let c := Char.toLower c
      if jsIsWordChar c || jsIsSpace c then c else ' '))))

/-- `String.prototype.split(" ")` restricted to the single-space separator
used by the tokenizers (input is `normalize` output). -/
def splitOnChar (sep : Char) (l : List Char) : List (List Char) :=
  l.foldr
    (fun c acc =>
      if c = sep then [] :: acc
      else
        match acc with
        | a :: as => (c :: a) :: as
        | [] => [[c]])
    [[]]

/-- The tokenizer skeleton shared by all revisions; only the stop-word list
differs: split the normalised text on spaces, keep words longer than two
characters that are not stop words. -/
def tokenizeWith (stop : List String) (s : String) : List String :=
  ((splitOnChar ' ' (normalize s).data).map ofChars).filter
    (fun w => 2 < w.data.length && !stop.contains w)

/-! ### A small matcher for the fixed regular expressions of the source

The handler only ever uses alternations of literal phrases, optionally
guarded by `\b` on either side, with the two quantified atoms `[- ]?` and
`.?`.  `Atom` models one pattern position, `RAlt` one alternative of an
alternation together with its word-boundary guards.  Matching follows the
backtracking semantics of JS regexes: an optional atom first tries to
consume, and every possible end position of the alternative is offered to
the trailing boundary check. -/

inductive Atom : Type
  | lit (c : Char)
  | optCls (cs : List Char)
  | optAny
deriving Repr, DecidableEq

structure RAlt : Type where
  atoms : List Atom
  bStart : Bool
  bEnd : Bool
deriving Repr, DecidableEq

/-- All ways an atom list can match a prefix of `s`; each result is the last
character consumed so far (initially the character before the match) paired
with the remaining suffix. -/
def matchEnds : List Atom → Option Char → List Char → List (Option Char × List Char)
  | [], last, s => [(last, s)]
  | .lit c :: as, _, x :: rest => if x = c then matchEnds as (some x) rest else []
  | .lit _ :: _, _, [] => []
  | .optCls cs :: as, last, s =>
    (match s with
     | x :: rest => if cs.contains x then matchEnds as (some x) rest else []
     | [] => []) ++ matchEnds as last s
  | .optAny :: as, last, s =>
    (match s with
     | x :: rest => if !jsIsLineTerm x then matchEnds as (some x) rest else []
     | [] => []) ++ matchEnds as last s

/-- Whether a `\b` boundary sits between the characters `a` and `b`
(`none` is the edge of the string and counts as a non-word character). -/
def boundaryB (a b : Option Char) : Bool :=
  (match a with | some c => jsIsWordChar c | none => false) !=
  (match b with | some c => jsIsWordChar c | none => false)

/-- Does alternative `a` match starting exactly at the current position
(`prev` is the character before it)? -/
def altMatchesHere (a : RAlt) (prev : Option Char) (s : List Char) : Bool :=
  (!a.bStart || boundaryB prev s.head?) &&
  (matchEnds a.atoms prev s).any (fun e => !a.bEnd || boundaryB e.1 e.2.head?)

/-- Scan every position of the text for a match of one of the alternatives. -/
def searchAux (alts : List RAlt) : Option Char → List Char → Bool
  | prev, s =>
    alts.any (fun a => altMatchesHere a prev s) ||
    (match s with
     | [] => false
     | c :: rest => searchAux alts (some c) rest)

/-- `rx.test(str)` for a case-insensitive regex: the pattern literals are
lowercase, so the text is lowercased first. -/
def jsTestCI (alts : List RAlt) (str : String) : Bool :=
  searchAux alts none (str.data.map Char.toLower)

/-- Literal phrase as an atom list. -/
def strLits (s : String) : List Atom := s.data.map Atom.lit

/-- A `\bphrase\b` alternative. -/
def phraseBB (s : String) : RAlt := ⟨strLits s, true, true⟩

/-- `SAFETY_REGEX` (identical in the `Nav` and `P1` revisions):
five case-insensitive alternations of crisis phrases. -/
def safetyRegexes : List (List RAlt) :=
  [ [phraseBB "suicide", phraseBB "kill myself", phraseBB "end my life",
     phraseBB "end it all"],
    [⟨strLits "self" ++ [Atom.optCls ['-', ' ']] ++ strLits "harm", true, true⟩,
     phraseBB "cut myself", phraseBB "cutting",
     ⟨strLits "self" ++ [Atom.optAny] ++ strLits "injur", true, true⟩],
    [phraseBB "i am not safe", phraseBB "i\x27m not safe",
     phraseBB "unsafe at home", phraseBB "in danger"],
    [phraseBB "abuse", phraseBB "sexual assault", phraseBB "rape",
     phraseBB "molested", phraseBB "violence"],
    [phraseBB "overdose", phraseBB "poison", phraseBB "hang"] ]

/-- `triggeredSafety(message)`: does any crisis regex match the raw message? -/
def triggeredSafety (message : String) : Bool :=
  safetyRegexes.any (fun rx => jsTestCI rx message)

/-! ### The CSV parser (`parseCSV`, identical in every revision) -/

/-- `if (row.some((v) => v !== "")) rows.push(row);` -/
def pushRow (rows : List (List (List Char))) (row : List (List Char)) :
    List (List (List Char)) :=
  if row.any (fun f => !f.isEmpty) then rows ++ [row] else rows

/-- The character loop of `parseCSV`, with the loop state (current field,
current row, emitted rows, in-quotes flag) made explicit.  The branches are
in the source's order; the two-character lookaheads (`""` escape, `\r\n`)
become `head?` tests plus a match on the (then provably non-empty) rest;
the `[]` arms of those matches are unreachable and written as the value the
loop would produce there. -/
def parseCSVAux : List Char → Bool → List Char → List (List Char) →
    List (List (List Char)) → List (List (List Char))
  | [], _, field, row, rows => pushRow rows (row ++ [field])
  | c :: rest, inQ, field, row, rows =>
    if c = '"' && inQ && rest.head? = some '"' then
      match rest with
      | _ :: restTl => parseCSVAux restTl inQ (field ++ ['"']) row rows
      | [] => pushRow rows (row ++ [field ++ ['"']])
    else if c = '"' then
      parseCSVAux rest (!inQ) field row rows
    else if c = ',' && !inQ then
      parseCSVAux rest inQ [] (row ++ [field]) rows
    else if (c = '\n' || c = '\r') && !inQ then
      if c = '\r' && rest.head? = some '\n' then
        match rest with
        | _ :: restTl =>
          parseCSVAux restTl inQ [] [] (pushRow rows (row ++ [field]))
        | [] => pushRow rows (row ++ [field])
      else parseCSVAux rest inQ [] [] (pushRow rows (row ++ [field]))
    else
      parseCSVAux rest inQ (field ++ [c]) row rows

/-- `parseCSV` at the character-list level. -/
def parseRows (cs : List Char) : List (List (List Char)) :=
  parseCSVAux cs false [] [] []

/-- `parseCSV(csv)`: rows of fields, as strings. -/
def parseCSV (csv : String) : List (List String) :=
  (parseRows csv.data).map (fun r => r.map ofChars)

/-! ### The catalog loader and its cache -/

/-- One row of the published spreadsheet (`items` element of the loader). -/
structure Resource : Type where
  id : String
  title : String
  description : String
  best_for : String
  when_to_use : String
  not_for : String
  fatherlessness_connection : String
  url : String
deriving Repr, DecidableEq

/-- The `required` column list of `loadResources`. -/
def requiredColumns : List String :=
  ["id", "title", "description", "best_for", "when_to_use", "not_for",
   "fatherlessness_connection", "url"]

/-- Header normalisation: `normalize(h).replace(/\s+/g, "_")`. -/
def normalizeHeader (h : String) : String :=
  ofChars (replaceWsRuns '_' false (normalize h).data)

/-- The failures `loadResources` can throw. -/
inductive LoadError : Type
  | fetchFailed (status : Nat) (bodyPrefix : String)
  | sheetEmpty
  | missingColumn (c : String)
deriving Repr, DecidableEq

/-- Build one `ResourceRecord` from a data row:
`(r2[col(name)] || "").trim()` for each required column. -/
def mkResource (headers : List String) (row : List String) : Resource :=
  let cell := fun (name : String) =>
    jsTrim ((row.get? (headers.indexOf name)).getD "")
  { id := cell "id", title := cell "title", description := cell "description",
    best_for := cell "best_for", when_to_use := cell "when_to_use",
    not_for := cell "not_for",
    fatherlessness_connection := cell "fatherlessness_connection",
    url := cell "url" }

/-- The parse/validate/map part of `loadResources` (after the fetch):
empty parse is `sheet_empty`; the first required column missing from the
normalised header is `missing_column:<c>`; otherwise data rows are mapped
positionally and rows without `id`, `title` and `url` are dropped. -/
def parseAndValidate (text : String) : Except LoadError (List Resource) :=
  match parseCSV text with
  | [] => .error .sheetEmpty
  | headerRow :: dataRows =>
    let headers := headerRow.map normalizeHeader
    match requiredColumns.find? (fun c => !headers.contains c) with
    | some c => .error (.missingColumn c)
    | none =>
      .ok ((dataRows.map (mkResource headers)).filter
        (fun x => x.id ≠ "" && x.title ≠ "" && x.url ≠ ""))

/-- The process-wide `CACHE = { at, ttlMs, items }` (items `null` at start).
The source's field `at` is a Lean keyword, so it is called `loadedAt` here. -/
structure Cache : Type where
  loadedAt : Int
  ttlMs : Int
  items : Option (List Resource)
deriving Repr, DecidableEq

/-- What the catalog `fetch(csvUrl)` would return, supplied as an oracle. -/
inductive FetchOutcome : Type
  | ok (body : String)
  | httpErr (status : Nat) (body : String)
deriving Repr, DecidableEq

/-- The fetch-parse-validate-replace path of `loadResources` (cache miss). -/
def loadCatalogFetch (now : Int) (fetch : FetchOutcome) (cache : Cache) :
    Except LoadError (List Resource) × Cache × Bool :=
  match fetch with
  | .httpErr status body =>
    (.error (.fetchFailed status (jsSliceTo body 180)), cache, true)
  | .ok text =>
    match parseAndValidate text with
    | .error e => (.error e, cache, true)
    | .ok items =>
      (.ok items, { loadedAt := now, ttlMs := cache.ttlMs, items := some items },
       true)

/-- `loadResources(csvUrl)` with the cache threaded explicitly.  Returns the
result, the new cache, and whether the network was touched.  A present
`items` array (`CACHE.items` truthy — note that an empty array is truthy in
JS) within `ttlMs` of `loadedAt` is returned without fetching; otherwise the
text is fetched, parsed and validated, and only a fully successful load
replaces the cache (`CACHE = { at: now, ttlMs: CACHE.ttlMs, items }`). -/
def loadCatalog (now : Int) (fetch : FetchOutcome) (cache : Cache) :
    Except LoadError (List Resource) × Cache × Bool :=
  match cache.items with
  | some its =>
    if now - cache.loadedAt < cache.ttlMs then (.ok its, cache, false)
    else loadCatalogFetch now fetch cache
  | none => loadCatalogFetch now fetch cache

/-! ### Stable descending sort

`ranked.sort((a, b) => b.s - a.s)` — `Array.prototype.sort` is specified to
be stable, and with this comparator it orders by score descending keeping
the original order of equal scores.  `sortDesc` is the insertion-sort
realisation of that unique stable order. -/

def insertDesc {α : Type} (key : α → Int) (x : α) : List α → List α
  | [] => [x]
  | y :: ys => if key y ≤ key x then x :: y :: ys else y :: insertDesc key x ys

def sortDesc {α : Type} (key : α → Int) : List α → List α
  | [] => []
  | x :: xs => insertDesc key x (sortDesc key xs)

end SP

namespace SP

/-- A raw history entry from the request body; `content = none` models a
non-string `content` field. -/
structure RawMsg : Type where
  role : String
  content : Option String
deriving Repr, DecidableEq

/-- A sanitized history entry. -/
structure Msg : Type where
  role : String
  content : String
deriving Repr, DecidableEq

/-- JS `a || b` on strings. -/
def orElseStr (a b : String) : String := if a = "" then b else a

end SP

namespace Nav

/-! The top revision of `api/navigate.js`. -/

def MAX_MESSAGE_LENGTH : Nat := 2000
def MAX_HISTORY_ITEMS : Nat := 40

/-- `sanitizeHistory`: keep only user/assistant entries with string content,
truncate each content to 1400 characters, keep the last 40 entries. -/
def sanitizeHistory (history : List SP.RawMsg) : List SP.Msg :=
  SP.jsSliceLast
    (history.filterMap (fun m =>
      match m.content with
      | some c =>
        if m.role = "user" || m.role = "assistant" then
          some ⟨m.role, SP.jsSliceTo c 1400⟩
        else none
      | none => none))
    MAX_HISTORY_ITEMS

/-- `recentUserText(history, maxTurns)`: the last `maxTurns` entries' user
contents joined by newlines, truncated to 4500 characters. -/
def recentUserText (history : List SP.Msg) (maxTurns : Nat) : String :=
  SP.jsSliceTo
    (String.intercalate "\n"
      ((SP.jsSliceLast history maxTurns).filterMap (fun m =>
        if m.role = "user" then some m.content else none)))
    4500

/-- The stop-word set of this revision's `tokenize`. -/
def stopWords : List String :=
  ["the", "and", "or", "but", "if", "to", "of", "in", "on", "for", "with",
   "is", "are", "was", "were", "be", "been", "being", "i", "me", "my", "you",
   "your", "we", "they", "this", "that", "it", "a", "an", "about", "from",
   "by", "at", "as", "im", "i\x27m", "dont", "don\x27t", "cant", "can\x27t",
   "so", "just", "like", "really", "can", "could", "would", "please", "help",
   "need", "want", "get", "give", "show", "tell", "also", "now", "yes",
   "yeah", "ok", "okay", "do", "it", "thanks", "thank", "find", "me", "some",
   "stuff", "thing", "things", "stop", "no", "nah"]

def tokenize (s : String) : List String := SP.tokenizeWith stopWords s

/-- `t.replace(/[^a-z]/g, "")`. -/
def cleanAZ (t : String) : String :=
  SP.ofChars (t.data.filter (fun c => 'a' ≤ c && c ≤ 'z'))

/-- The synonym map of `expandIntentTokens`. -/
def expandMap : List (String × List String) :=
  [("talk", ["talk", "someone", "support", "listener", "peer", "mentor",
             "counselor", "counselling", "counseling", "therapy",
             "therapist"]),
   ("support", ["support", "community", "peer", "group", "groups", "help",
                "guidance", "connect", "connection"]),
   ("community", ["community", "peer", "group", "groups", "belonging",
                  "local", "inperson", "in-person"]),
   ("confidence", ["confidence", "selfesteem", "self-esteem",
                   "assertiveness", "motivation", "courage"]),
   ("anxiety", ["anxiety", "panic", "worry", "nervous", "stress"]),
   ("stress", ["stress", "overwhelmed", "pressure", "burnout"]),
   ("grief", ["grief", "loss", "mourning"]),
   ("friends", ["friends", "friendship", "social", "lonely", "loneliness"]),
   ("relationships", ["relationships", "dating", "breakup", "family",
                      "parents"]),
   ("school", ["school", "homework", "grades", "class", "teacher",
               "bullying"]),
   ("mentor", ["mentor", "mentorship", "coach", "rolemodel", "role-model"]),
   ("therapy", ["therapy", "therapist", "counseling", "counselling",
                "mentalhealth", "mental-health"]),
   ("fix", ["fix", "repair", "howto", "how-to", "tutorial", "guide",
            "skills", "life", "life-skills"])]

/-- Insertion-ordered set `add` (a JS `Set` iterates in insertion order). -/
def addUniq (l : List String) (x : String) : List String :=
  if l.contains x then l else l ++ [x]

/-- `expandIntentTokens(tokens)`. -/
def expandIntentTokens (tokens : List String) : List String :=
  let base := tokens.foldl (fun acc t => addUniq acc (cleanAZ t)) []
  let out := tokens.foldl
    (fun acc t =>
      let key := cleanAZ t
      if key = "" then acc
      else
        expandMap.foldl
          (fun acc2 ks =>
            if key = ks.1 || ks.2.contains key then
              ks.2.foldl (fun a s => addUniq a (cleanAZ s)) (addUniq acc2 ks.1)
            else acc2)
          acc)
    base
  out.filter (fun t => t ≠ "")

/-- `/\b(i want to die|kill myself|end my life|self harm|cut myself)\b/i`. -/
def highUrgencyRegex : List SP.RAlt :=
  [SP.phraseBB "i want to die", SP.phraseBB "kill myself",
   SP.phraseBB "end my life", SP.phraseBB "self harm",
   SP.phraseBB "cut myself"]

/-- `/\bpanic|can t breathe|freaking out|urgent\b/i` — note the alternation
binds loosely: only `panic` has the leading boundary and only `urgent` the
trailing one. -/
def mediumUrgencyRegex : List SP.RAlt :=
  [⟨SP.strLits "panic", true, false⟩,
   ⟨SP.strLits "can t breathe", false, false⟩,
   ⟨SP.strLits "freaking out", false, false⟩,
   ⟨SP.strLits "urgent", false, true⟩]

/-- `inferUrgency(messageNorm)`. -/
def inferUrgency (messageNorm : String) : String :=
  if SP.jsTestCI highUrgencyRegex messageNorm then "high"
  else if SP.jsTestCI mediumUrgencyRegex messageNorm then "medium"
  else "low"

/-- `isCrisisResource(resource)` (this revision checks title, description
and when_to_use). -/
def isCrisisResource (r : SP.Resource) : Bool :=
  let t := SP.jsToLower (r.title ++ " " ++ r.description ++ " " ++ r.when_to_use)
  SP.jsIncludes t "crisis" || SP.jsIncludes t "suicide" ||
  SP.jsIncludes t "self-harm" || SP.jsIncludes t "hotline" ||
  SP.jsIncludes t "988"

/-- `resourceIsGendered(resource)`. -/
def resourceIsGendered (r : SP.Resource) : Bool :=
  let t := SP.jsToLower (r.title ++ " " ++ r.description ++ " " ++ r.best_for)
  SP.jsIncludes t "girls" || SP.jsIncludes t "girl " ||
  SP.jsIncludes t "women" || SP.jsIncludes t "female" ||
  SP.jsIncludes t "boys" || SP.jsIncludes t "men" || SP.jsIncludes t "male"

/-- `userIndicatedGender(messageNorm, historyNorm)`. -/
def userIndicatedGender (messageNorm historyNorm : String) : Bool :=
  let t := SP.jsToLower (messageNorm ++ "\n" ++ historyNorm)
  SP.jsIncludes t "i am a girl" || SP.jsIncludes t "i\x27m a girl" ||
  SP.jsIncludes t "im a girl" || SP.jsIncludes t "female" ||
  SP.jsIncludes t "i am a boy" || SP.jsIncludes t "i\x27m a boy" ||
  SP.jsIncludes t "im a boy" || SP.jsIncludes t "male"

/-- The `talkWords` list of `scoreResource`. -/
def talkWords : List String :=
  ["talk", "support", "peer", "mentor", "therapy", "therapist", "counseling",
   "counselling", "group", "listener"]

/-- `scoreResource(resource, intentTokensExpanded, historyNorm,
allowGendered, urgency)` of the top revision. -/
def scoreResource (resource : SP.Resource)
    (intentTokensExpanded : List String) (historyNorm : String)
    (allowGendered : Bool) (urgency : String) : Int :=
  let hayText := SP.normalize
    (resource.title ++ " " ++ resource.description ++ " " ++
     resource.best_for ++ " " ++ resource.when_to_use ++ " " ++
     resource.not_for ++ " " ++ resource.fatherlessness_connection)
  let hayTokens := (tokenize hayText).map cleanAZ
  let s1 : Int := intentTokensExpanded.foldl
    (fun acc tok =>
      let clean := cleanAZ tok
      if clean ≠ "" && hayTokens.contains clean then acc + 4 else acc) 0
  let wantsTalk := intentTokensExpanded.contains "talk" ||
    intentTokensExpanded.contains "support"
  let s2 : Int :=
    if wantsTalk then
      talkWords.foldl
        (fun acc w =>
          if hayTokens.contains (cleanAZ w) then acc + 3 else acc) 0
    else 0
  let ctxSet := (tokenize historyNorm).map cleanAZ
  let s3 : Int := intentTokensExpanded.foldl
    (fun acc tok =>
      let clean := cleanAZ tok
      if clean ≠ "" && ctxSet.contains clean && hayTokens.contains clean then
        acc + 1
      else acc) 0
  let s4 : Int :=
    (if urgency = "high" && isCrisisResource resource then 30 else 0) +
    (if urgency ≠ "high" && isCrisisResource resource then -10 else 0)
  let s5 : Int := if !allowGendered && resourceIsGendered resource then -12 else 0
  let s6 : Int :=
    (if 30 < resource.description.data.length then 1 else 0) +
    (if 20 < resource.best_for.data.length then 1 else 0)
  s1 + s2 + s3 + s4 + s5 + s6

/-- The ranking step of the handler:
`resources.map(r => ({ r, s: scoreResource(...) })).sort((a, b) => b.s - a.s)`
(no positivity filter in this revision). -/
def rankResources (resources : List SP.Resource)
    (intentTokensExpanded : List String) (historyNorm : String)
    (allowGendered : Bool) (urgency : String) : List (SP.Resource × Int) :=
  SP.sortDesc (fun x => x.2)
    (resources.map (fun r =>
      (r, scoreResource r intentTokensExpanded historyNorm allowGendered
        urgency)))

/-- The selection step (`top`) of the handler: the first three candidates
scoring at least 8; if none, the first three non-crisis candidates in ranked
order; if every candidate is a crisis resource, the first three ranked
candidates. -/
def selectTop (ranked : List (SP.Resource × Int)) : List SP.Resource :=
  let top := ((ranked.filter (fun x => 8 ≤ x.2)).take 3).map (fun x => x.1)
  if top.isEmpty then
    let t2 := ((ranked.filter (fun x => !isCrisisResource x.1)).take 3).map
      (fun x => x.1)
    if t2.isEmpty then (ranked.take 3).map (fun x => x.1) else t2
  else top

end Nav

namespace Nav

/-! ### `stripBadFormatting` and its three regex replacements -/

/-- `out.replace(/\*\*/g, "")`: remove non-overlapping `**` pairs. -/
def stripStars : List Char → List Char
  | '*' :: '*' :: rest => stripStars rest
  | c :: rest => c :: stripStars rest
  | [] => []

/-- Case-insensitive literal prefix strip (the pattern is lowercase). -/
def dropCI : List Char → List Char → Option (List Char)
  | [], l => some l
  | _ :: _, [] => none
  | p :: ps, c :: cs => if c.toLower = p then dropCI ps cs else none

/-- After `http` / `https`, match `://` followed by at least one `\S`. -/
def urlTail (r : List Char) : Option (List Char) :=
  match dropCI "://".data r with
  | none => none
  | some r2 =>
    if (r2.takeWhile (fun c => !SP.jsIsSpace c)).isEmpty then none
    else some (r2.dropWhile (fun c => !SP.jsIsSpace c))

/-- One match of `/https?:\/\/\S+/i` at the head of `l`: the remaining
suffix after the URL (the optional `s` is tried greedily first). -/
def urlEnd (l : List Char) : Option (List Char) :=
  match dropCI "http".data l with
  | none => none
  | some r1 =>
    match r1 with
    | c :: r1x =>
      if c.toLower = 's' then
        match urlTail r1x with
        | some x => some x
        | none => urlTail r1
      else urlTail r1
    | [] => urlTail r1

/-- `out.replace(/https?:\/\/\S+/gi, "")`, with a character-count fuel so
the recursion is structural (each step consumes at least one character, so
`l.length` fuel always suffices). -/
def stripUrlsF : Nat → List Char → List Char
  | _, [] => []
  | 0, l => l
  | fuel + 1, c :: rest =>
    match urlEnd (c :: rest) with
    | some rest2 => stripUrlsF fuel rest2
    | none => c :: stripUrlsF fuel rest

def stripUrls (l : List Char) : List Char := stripUrlsF l.length l

/-- State of the `/\s{2,}/g` replacement scan: in plain text, just after a
collapsed whitespace run, or holding one pending whitespace character whose
run length is not yet known. -/
inductive WsScan : Type
  | norm
  | run
  | pend (c : Char)

/-- `out.replace(/\s{2,}/g, " ")`: each run of two or more whitespace
characters becomes one space; a single whitespace character is kept
verbatim. -/
def collapse2Aux : WsScan → List Char → List Char
  | .norm, [] => []
  | .run, [] => []
  | .pend p, [] => [p]
  | .norm, c :: rest =>
    if SP.jsIsSpace c then collapse2Aux (.pend c) rest
    else c :: collapse2Aux .norm rest
  | .run, c :: rest =>
    if SP.jsIsSpace c then collapse2Aux .run rest
    else c :: collapse2Aux .norm rest
  | .pend p, c :: rest =>
    if SP.jsIsSpace c then ' ' :: collapse2Aux .run rest
    else p :: c :: collapse2Aux .norm rest

def collapse2 (l : List Char) : List Char := collapse2Aux .norm l

/-- `stripBadFormatting(s)`. -/
def stripBadFormatting (s : String) : String :=
  let out := SP.jsTrim s
  let out := SP.ofChars (stripStars out.data)
  let out := SP.ofChars (stripUrls out.data)
  SP.jsTrim (SP.ofChars (collapse2 out.data))

/-! ### The handler -/

/-- A resource as sent to the text rewriter (`top.map((r) => ({ id, title,
description, best_for, when_to_use, not_for, fatherlessness_connection }))` —
no URL is sent to the model). -/
structure WriterView : Type where
  id : String
  title : String
  description : String
  best_for : String
  when_to_use : String
  not_for : String
  fatherlessness_connection : String
deriving Repr, DecidableEq

def writerView (r : SP.Resource) : WriterView :=
  ⟨r.id, r.title, r.description, r.best_for, r.when_to_use, r.not_for,
   r.fatherlessness_connection⟩

/-- The user-turn payload of the single OpenAI call of this revision. -/
structure ModelPayload : Type where
  user_request : String
  inferred_intent_text : String
  resources : List WriterView
deriving Repr, DecidableEq

/-- The observable collaborator effects of one request, in order. -/
inductive Effect : Type
  | catalogFetch
  | modelCall (payload : ModelPayload)
deriving Repr, DecidableEq

/-- A resource in the HTTP response (`{ title, url, why }`). -/
structure OutRes : Type where
  title : String
  url : String
  why : String
deriving Repr, DecidableEq

/-- The JSON value a successful OpenAI call was parsed into:
`{"intro": string, "cards": [{"id","description","why","next_steps"}]}`.
A missing string field is the empty string (every consumer guards with
`|| fallback`, for which `""` and a missing field behave identically);
`cards = none` models a response whose `cards` is not an array. -/
structure Card : Type where
  id : String
  description : String
  why : String
  next_steps : String
deriving Repr, DecidableEq

structure Writeups : Type where
  intro : String
  cards : Option (List Card)
deriving Repr, DecidableEq

/-- The OpenAI call outcome, supplied as an oracle: either the thrown error
message (`openai_call_failed:…`, `openai_empty`, `openai_bad_json:…`, a
timeout) or the parsed JSON. -/
inductive ModelOutcome : Type
  | fail (message : String)
  | ok (w : Writeups)
deriving Repr, DecidableEq

/-- The possible HTTP responses of the handler.  `safety` is the fixed
response of the safety gate; `ok` is any other 200 response of shape
`{ intro, paragraphs, resources }`. -/
inductive Response : Type
  | noContent
  | methodNotAllowed
  | envError
  | badRequest (error : String)
  | safety (intro : String) (paragraphs : List String)
      (resources : List OutRes)
  | ok (intro : String) (paragraphs : List String) (resources : List OutRes)
  | serverError (detail hint : String)
deriving Repr, DecidableEq

/-- The request body (`message` absent or non-string collapses to `""` via
`String(req.body?.message || "")`). -/
structure Body : Type where
  message : String
  history : List SP.RawMsg
deriving Repr, DecidableEq

structure Req : Type where
  method : String
  envOk : Bool
  body : Body
deriving Repr, DecidableEq

def safetyIntro : String :=
  "If you’re not safe or you might hurt yourself, please reach out right now."

def safetyParagraph : String :=
  String.intercalate "\n"
    ["Teen Line (Didi Hirsch)",
     "https://didihirsch.org/teenline/",
     "Description: Peer support for teens with supervised listeners. You can call, text, or email depending on availability.",
     "Why it matches what you\x27re looking for: This is the fastest option for talking to someone right now when things feel overwhelming or unsafe.",
     "Next steps: Open the link and choose call or text. If it’s an emergency, contact local emergency services immediately."]

def safetyResources : List OutRes :=
  [⟨"Teen Line (Didi Hirsch)", "https://didihirsch.org/teenline/", ""⟩]

/-- The fixed, non-templated response of the safety gate. -/
def safetyResponse : Response :=
  .safety safetyIntro [safetyParagraph] safetyResources

def noUsableIntro : String :=
  "I couldn’t find any usable resources in the database right now."

def defaultIntro : String :=
  "Here are the best matches from Youth Fatherless Network’s database."

/-- The `err.message` string of a thrown catalog-load failure. -/
def loadErrorMessage : SP.LoadError → String
  | .fetchFailed status bodyPrefix =>
    "sheet_fetch_failed:" ++ toString status ++ ":" ++ bodyPrefix
  | .sheetEmpty => "sheet_empty"
  | .missingColumn c => "missing_column:" ++ c

/-- The `hint` field of the 500 response. -/
def hintFor (msg : String) : String :=
  if SP.jsIncludes msg "openai_call_failed" then
    "OpenAI call failed. Check OPENAI_API_KEY, billing, model access, and Vercel logs."
  else if SP.jsIncludes msg "sheet_fetch_failed" then
    "Sheet fetch failed. GOOGLE_SHEET_CSV_URL must be a published CSV export link (CSV export), not the edit link."
  else if SP.jsIncludes msg "missing_column" then
    "Your sheet headers do not match the required columns."
  else if SP.jsIncludes msg "openai_bad_json" then
    "Model returned malformed JSON. Try again or lower temperature further."
  else "Check Vercel function logs for details."

def serverErrorOf (msg : String) : Response :=
  .serverError (SP.jsSliceTo msg 600) (hintFor msg)

/-- `byId.get(String(r.id)) || {}` — a JS `Map` built from a list keeps the
last entry for a duplicated key. -/
def lookupCard (cards : List Card) (rid : String) : Card :=
  ((cards.filter (fun c => c.id = rid)).getLast?).getD ⟨"", "", "", ""⟩

structure CardFields : Type where
  description : String
  why : String
  next_steps : String
deriving Repr, DecidableEq

def mkFields (d : Card) (r : SP.Resource) : CardFields :=
  { description := stripBadFormatting (SP.orElseStr d.description
      (SP.orElseStr r.description
        "This is a resource from the YFN database that aligns with your request.")),
    why := stripBadFormatting (SP.orElseStr d.why
      "It matches the theme of what you asked for based on the database fields."),
    next_steps := stripBadFormatting (SP.orElseStr d.next_steps
      "Open the link, review what it offers, and choose the closest fit for you.") }

/-- `buildParagraphFromCard(resource, fields)`. -/
def buildParagraphFromCard (r : SP.Resource) (fields : CardFields) : String :=
  String.intercalate "\n"
    [r.title, r.url,
     "Description: " ++ fields.description,
     "Why it matches what you\x27re looking for: " ++ fields.why,
     "Next steps: " ++ fields.next_steps]

/-- The whole handler of the top revision, as a pure function of the request
and the two collaborator oracles.  Returns the response, the trace of
collaborator effects actually performed (in order), and the new cache. -/
def handlerRun (req : Req) (now : Int) (cache : SP.Cache)
    (fetch : SP.FetchOutcome) (model : ModelOutcome) :
    Response × List Effect × SP.Cache :=
  if req.method = "OPTIONS" then (.noContent, [], cache)
  else if req.method ≠ "POST" then (.methodNotAllowed, [], cache)
  else if !req.envOk then (.envError, [], cache)
  else
    let message := SP.jsTrim req.body.message
    if message = "" then (.badRequest "Missing message", [], cache)
    else if MAX_MESSAGE_LENGTH < message.length then
      (.badRequest "Message too long", [], cache)
    else
      let history := sanitizeHistory req.body.history
      let messageNorm := SP.normalize message
      let historyUserText := recentUserText history 14
      let historyNorm := SP.normalize historyUserText
      if SP.triggeredSafety message then (safetyResponse, [], cache)
      else
        match SP.loadCatalog now fetch cache with
        | (.error e, cache2, _) =>
          (serverErrorOf (loadErrorMessage e), [.catalogFetch], cache2)
        | (.ok resources, cache2, fetched) =>
          let trace0 : List Effect := if fetched then [.catalogFetch] else []
          if resources.isEmpty then
            (.ok noUsableIntro [] [], trace0, cache2)
          else
            let urgency := inferUrgency messageNorm
            let intentText := SP.jsTrim (message ++ "\n" ++ historyUserText)
            let intentTokens := tokenize intentText
            let expanded := expandIntentTokens intentTokens
            let allowGendered := userIndicatedGender messageNorm historyNorm
            let ranked := rankResources resources expanded historyNorm
              allowGendered urgency
            let top := selectTop ranked
            let payload : ModelPayload :=
              ⟨message, intentText, top.map writerView⟩
            let trace := trace0 ++ [.modelCall payload]
            match model with
            | .fail err => (serverErrorOf err, trace, cache2)
            | .ok w =>
              let intro := SP.orElseStr (SP.jsTrim w.intro) defaultIntro
              let draftCards := w.cards.getD []
              let paragraphs := top.map (fun r =>
                buildParagraphFromCard r (mkFields (lookupCard draftCards r.id) r))
              (.ok intro paragraphs
                (top.map (fun r => ⟨r.title, r.url, ""⟩)), trace, cache2)

end Nav

namespace P1

/-! The first revision of `src/unnamed/part_001` (`api/navigate.js` of the
earlier SinePatre deployment): classifier-assisted selection with the
crisis policy filter of §4.5. -/

def MAX_MESSAGE_LENGTH : Nat := 1200
def MAX_HISTORY_ITEMS : Nat := 20

/-- The stop-word set of this revision's `tokenize`. -/
def stopWords : List String :=
  ["the", "and", "or", "but", "if", "to", "of", "in", "on", "for", "with",
   "is", "are", "was", "were", "be", "been", "being", "i", "me", "my", "you",
   "your", "we", "they", "this", "that", "it", "im", "i\x27m", "dont",
   "don\x27t", "cant", "can\x27t", "a", "an", "about", "from", "by", "at",
   "as", "into", "through", "during", "before", "after"]

def tokenize (s : String) : List String := SP.tokenizeWith stopWords s

/-- `sanitizeHistory`: user/assistant entries with string content, content
truncated to 1200 characters, last 20 entries. -/
def sanitizeHistory (history : List SP.RawMsg) : List SP.Msg :=
  SP.jsSliceLast
    (history.filterMap (fun m =>
      match m.content with
      | some c =>
        if m.role = "user" || m.role = "assistant" then
          some ⟨m.role, SP.jsSliceTo c 1200⟩
        else none
      | none => none))
    MAX_HISTORY_ITEMS

/-- `isCrisisResource(resource)` (this revision also checks `emergency`). -/
def isCrisisResource (r : SP.Resource) : Bool :=
  let t := SP.jsToLower (r.title ++ " " ++ r.description ++ " " ++ r.when_to_use)
  SP.jsIncludes t "crisis" || SP.jsIncludes t "suicide" ||
  SP.jsIncludes t "self-harm" || SP.jsIncludes t "hotline" ||
  SP.jsIncludes t "988" || SP.jsIncludes t "emergency"

/-- `scoreResource(resource, queryTokens, tagTokens, urgency)`:
the haystack is iterated with multiplicity (it is a token list, not a set),
+3 per haystack token in the query tokens, +5 per haystack token in the tag
tokens, +6 if the connection field mentions fathers, +10 for crisis
resources under high urgency. -/
def scoreResource (resource : SP.Resource) (queryTokens tagTokens : List String)
    (urgency : String) : Int :=
  let haystack := tokenize
    (resource.title ++ " " ++ resource.description ++ " " ++
     resource.best_for ++ " " ++ resource.fatherlessness_connection ++ " " ++
     resource.when_to_use ++ " " ++ resource.not_for)
  let s1 : Int := haystack.foldl
    (fun acc w =>
      (if queryTokens.contains w then acc + 3 else acc) +
      (if tagTokens.contains w then 5 else 0)) 0
  let fatherText := SP.jsToLower resource.fatherlessness_connection
  let s2 : Int :=
    if SP.jsIncludes fatherText "father" || SP.jsIncludes fatherText "dad" ||
        SP.jsIncludes fatherText "fatherless" then 6
    else 0
  let s3 : Int := if urgency = "high" && isCrisisResource resource then 10 else 0
  s1 + s2 + s3

/-- The ranking chain of the handler (`rankedAll`):
score each record, keep strictly positive scores, stable-sort descending. -/
def rankChain (resources : List SP.Resource) (queryTokens tagTokens : List String)
    (urgency : String) : List (SP.Resource × Int) :=
  SP.sortDesc (fun x => x.2)
    ((resources.map (fun r =>
        (r, scoreResource r queryTokens tagTokens urgency))).filter
      (fun x => 0 < x.2))

/-- The crisis policy filter: below the highest urgency remove crisis
resources unless that would leave the list empty, in which case the
unfiltered ranked list is used. -/
def applyCrisisFilter (urgency : String) (rankedAll : List (SP.Resource × Int)) :
    List (SP.Resource × Int) :=
  if urgency ≠ "high" then
    let f := rankedAll.filter (fun x => !isCrisisResource x.1)
    if f.isEmpty then rankedAll else f
  else rankedAll

/-- `wantSinglePick(message)`. -/
def wantSinglePick (message : String) : Bool :=
  let t := SP.normalize message
  SP.jsIncludes t "which is the best" || SP.jsIncludes t "which one is best" ||
  SP.jsIncludes t "which is best" || SP.jsIncludes t "pick one" ||
  SP.jsIncludes t "choose one" || SP.jsIncludes t "just one" ||
  SP.jsIncludes t "best one" || SP.jsIncludes t "the best option"

/-- `buildHowToStart(resource)`: detect contact modes with fixed `\b`
regexes over the lowercased usage text; the source accumulates with a
deduplicating `add` and then reorders along the fixed `order` list, which is
equivalent to testing each mode once in that order. -/
def buildHowToStart (r : SP.Resource) : List String :=
  let text := SP.jsToLower
    (r.when_to_use ++ "\n" ++ r.description ++ "\n" ++ r.best_for)
  let callC := SP.jsTestCI [SP.phraseBB "call"] text ||
    SP.jsTestCI [SP.phraseBB "phone"] text ||
    SP.jsTestCI [SP.phraseBB "hotline"] text
  let textC := SP.jsTestCI [SP.phraseBB "text"] text ||
    SP.jsTestCI [SP.phraseBB "sms"] text
  let formC := SP.jsTestCI [SP.phraseBB "form"] text ||
    SP.jsTestCI [SP.phraseBB "apply"] text ||
    SP.jsTestCI [SP.phraseBB "sign up"] text ||
    SP.jsTestCI [SP.phraseBB "register"] text
  let walkC := SP.jsTestCI
      [⟨SP.strLits "walk" ++ [SP.Atom.optCls ['-', ' ']] ++ SP.strLits "in",
        true, true⟩] text ||
    SP.jsTestCI [SP.phraseBB "in person"] text
  let refC := SP.jsTestCI [SP.phraseBB "referral"] text ||
    SP.jsTestCI [SP.phraseBB "doctor"] text ||
    SP.jsTestCI [SP.phraseBB "counselor"] text
  let ordered :=
    (if callC then ["Call"] else []) ++ (if textC then ["Text"] else []) ++
    (if formC then ["Form"] else []) ++ (if walkC then ["Walk-in"] else []) ++
    (if refC then ["Referral"] else [])
  if ordered.isEmpty then ["Form", "Call"] else ordered

/-- The request body of this revision
(`{ message, history, age, topics }`); `topics = none` models a non-array
`topics` field. -/
structure Body : Type where
  message : String
  history : List SP.RawMsg
  age : String
  topics : Option (List String)
deriving Repr, DecidableEq

structure Req : Type where
  method : String
  envOk : Bool
  body : Body
deriving Repr, DecidableEq

/-- What the intent-classifier call was parsed into (the fields the handler
reads; a missing string is `""`, a missing array is `[]`). -/
structure Classification : Type where
  need_tags : List String
  urgency : String
  intent : String
  needs_one_question : Bool
deriving Repr, DecidableEq

inductive ClassifyOutcome : Type
  | fail (message : String)
  | ok (c : Classification)
deriving Repr, DecidableEq

/-- One resource of the writer model's JSON output. -/
structure WRes : Type where
  title : String
  url : String
  why : String
  how_to_start : Option (List String)
deriving Repr, DecidableEq

/-- What the response-writer call was parsed into. -/
structure Writeup : Type where
  intro : String
  clarifying_question : String
  resources : Option (List WRes)
deriving Repr, DecidableEq

inductive WriteOutcome : Type
  | fail (message : String)
  | ok (w : Writeup)
deriving Repr, DecidableEq

/-- The user-turn payload of the classifier call
(`JSON.stringify({ message, age, topics })`; the sanitized history is also
sent as prior turns). -/
structure ClassifyPayload : Type where
  message : String
  age : String
  topics : List String
deriving Repr, DecidableEq

/-- The user-turn payload of the response-writer call — note `resources`
carries full catalog records (`resources: topForWriter`). -/
structure WritePayload : Type where
  message : String
  age : String
  topics : List String
  urgency : String
  intent : String
  need_tags : List String
  resources : List SP.Resource
  show_count : Nat
  allow_clarify : Bool
deriving Repr, DecidableEq

/-- The observable collaborator effects of one request, in order. -/
inductive Effect : Type
  | catalogFetch
  | classifyCall (payload : ClassifyPayload)
  | writeCall (payload : WritePayload)
deriving Repr, DecidableEq

/-- A resource of the safety response (`{ title, url, why }`). -/
structure SRes : Type where
  title : String
  url : String
  why : String
deriving Repr, DecidableEq

/-- A card of the recommendations response. -/
structure Card : Type where
  title : String
  url : String
  why : String
  how_to_start : List String
deriving Repr, DecidableEq

inductive Response : Type
  | noContent
  | methodNotAllowed
  | envError
  | badRequest (error : String)
  | safety (intro : String) (resources : List SRes)
  | noMatch (intro : String) (clarifying_question : String)
  | recommendations (intro : String) (clarifying_question : Option String)
      (resources : List Card)
  | serverError (error detail : String)
deriving Repr, DecidableEq

def safetyIntro : String :=
  "You deserve immediate support. Please reach out right now."

def safetyResources : List SRes :=
  [⟨"988 Suicide & Crisis Lifeline", "https://988lifeline.org",
    "Call or text 988, 24/7 in the U.S."⟩,
   ⟨"Crisis Text Line", "https://www.crisistextline.org",
    "Text HOME to 741741 for 24/7 support."⟩,
   ⟨"Teen Line", "https://teenline.org",
    "Teens helping teens by text, call, or email."⟩,
   ⟨"Childhelp Hotline", "https://www.childhelp.org/hotline/",
    "Support for abuse or unsafe situations."⟩]

/-- The fixed safety-gate response of this revision. -/
def safetyResponse : Response := .safety safetyIntro safetyResources

def noMatchResponse : Response :=
  .noMatch
    "I can help, but I need one detail to narrow it down. Are you looking to talk now, ongoing support, or a mentor?"
    "What would help most right now: someone to talk to today, ongoing support, or mentorship?"

/-- Every caught error maps to the same calm 500 payload. -/
def serverErrorResponse : Response :=
  .serverError "Something went wrong" "Please try again in a moment."

def emptyResource : SP.Resource := ⟨"", "", "", "", "", "", "", ""⟩

def allowedSteps : List String := ["Call", "Text", "Form", "Walk-in", "Referral"]

/-- One output card:
`topForWriter.find((r) => r.title === x.title && r.url === x.url) ||
topForWriter[0]` supplies the fallback `how_to_start`. -/
def buildCard (topForWriter : List SP.Resource) (x : WRes) : Card :=
  let fallbackSteps := buildHowToStart
    ((topForWriter.find? (fun r => r.title = x.title && r.url = x.url)).getD
      (topForWriter.head?.getD emptyResource))
  let provided := x.how_to_start.getD []
  let cleaned := (provided.filter (fun s => allowedSteps.contains s)).take 4
  ⟨SP.jsTrim x.title, SP.jsTrim x.url, SP.jsTrim x.why,
   if cleaned.isEmpty then fallbackSteps else cleaned⟩

/-- The urgency string the handler derives from a classification. -/
def urgencyOf (cls : Classification) : String :=
  SP.jsToLower (SP.orElseStr cls.urgency "low")

/-- The intent string the handler derives from a classification. -/
def intentOf (cls : Classification) : String :=
  SP.jsToLower (SP.orElseStr cls.intent "explore")

/-- The query tokens of a request:
`tokenize(`${message} ${topics.join(" ")} ${age ? `age ${age}` : ""}`)`. -/
def queryTokensOf (body : Body) : List String :=
  let message := SP.jsTrim body.message
  let age := SP.jsSliceTo (SP.jsTrim body.age) 24
  let topics := (body.topics.getD []).take 8
  tokenize (message ++ " " ++ String.intercalate " " topics ++ " " ++
    (if age ≠ "" then "age " ++ age else ""))

/-- The crisis-filtered ranked list of a request, catalog and
classification. -/
def rankedOf (body : Body) (resources : List SP.Resource)
    (cls : Classification) : List (SP.Resource × Int) :=
  applyCrisisFilter (urgencyOf cls)
    (rankChain resources (queryTokensOf body)
      (tokenize (String.intercalate " " cls.need_tags)) (urgencyOf cls))

/-- The result-size limit of a request (`1` for pick-best intents). -/
def limitOf (cls : Classification) (body : Body) : Nat :=
  if intentOf cls = "pick_best" || wantSinglePick (SP.jsTrim body.message) then 1
  else 3

/-- The candidate pool the handler hands to the response writer:
`ranked.slice(0, Math.max(limit, 5)).map((x) => x.r)`. -/
def topForWriterOf (body : Body) (resources : List SP.Resource)
    (cls : Classification) : List SP.Resource :=
  ((rankedOf body resources cls).take (max (limitOf cls body) 5)).map
    (fun x => x.1)

/-- The whole handler of this revision as a pure function of the request and
the three collaborator oracles (catalog fetch, classifier call, writer
call), with the trace of collaborator effects actually performed. -/
def handlerRun (req : Req) (now : Int) (cache : SP.Cache)
    (fetch : SP.FetchOutcome) (classify : ClassifyOutcome)
    (write : WriteOutcome) : Response × List Effect × SP.Cache :=
  if req.method = "OPTIONS" then (.noContent, [], cache)
  else if req.method ≠ "POST" then (.methodNotAllowed, [], cache)
  else if !req.envOk then (.envError, [], cache)
  else
    let message := SP.jsTrim req.body.message
    if message = "" then (.badRequest "Missing message", [], cache)
    else if MAX_MESSAGE_LENGTH < message.length then
      (.badRequest "Message too long", [], cache)
    else
      let _history := sanitizeHistory req.body.history
      let age := SP.jsSliceTo (SP.jsTrim req.body.age) 24
      let topics := (req.body.topics.getD []).take 8
      if SP.triggeredSafety message then (safetyResponse, [], cache)
      else
        match SP.loadCatalog now fetch cache with
        | (.error _, cache2, _) =>
          (serverErrorResponse, [.catalogFetch], cache2)
        | (.ok resources, cache2, fetched) =>
          let trace0 : List Effect := if fetched then [.catalogFetch] else []
          let cpayload : ClassifyPayload := ⟨message, age, topics⟩
          let trace1 := trace0 ++ [.classifyCall cpayload]
          match classify with
          | .fail _ => (serverErrorResponse, trace1, cache2)
          | .ok cls =>
            let urgency := urgencyOf cls
            let intent := intentOf cls
            let ranked := rankedOf req.body resources cls
            if ranked.isEmpty then (noMatchResponse, trace1, cache2)
            else
              let limit : Nat :=
                if intent = "pick_best" || wantSinglePick message then 1 else 3
              let topForWriter := (ranked.take (max limit 5)).map (fun x => x.1)
              let wpayload : WritePayload :=
                ⟨message, age, topics, urgency, intent, cls.need_tags,
                 topForWriter, limit, cls.needs_one_question⟩
              let trace2 := trace1 ++ [.writeCall wpayload]
              match write with
              | .fail _ => (serverErrorResponse, trace2, cache2)
              | .ok w =>
                let outResources := w.resources.getD []
                let clipped := (outResources.take limit).map
                  (buildCard topForWriter)
                (.recommendations
                  (SP.jsTrim (SP.orElseStr w.intro
                    "Here is what fits best based on what you shared."))
                  (if w.clarifying_question ≠ "" then
                    some (SP.jsTrim w.clarifying_question)
                   else none)
                  clipped, trace2, cache2)

end P1

namespace SP

/-! ### Serialisation for the parser round-trip property

The spec's round-trip serialises a table by joining each row's fields with
commas and the rows with newlines. -/

/-- Join character lists with a separator character. -/
def joinWith (sep : Char) : List (List Char) → List Char
  | [] => []
  | [f] => f
  | f :: g :: fs => f ++ sep :: joinWith sep (g :: fs)

def serializeRow (row : List (List Char)) : List Char := joinWith ',' row

def serializeTable (t : List (List (List Char))) : List Char :=
  joinWith '\n' (t.map serializeRow)

/-- A field character the naive serialisation can represent losslessly. -/
def plainChar (c : Char) : Prop :=
  c ≠ '"' ∧ c ≠ ',' ∧ c ≠ '\n' ∧ c ≠ '\r'

instance : DecidablePred plainChar := fun c => by
  unfold plainChar
  infer_instance

end SP

namespace Nav

/-- The intent text the handler sends to the model:
`(message + "\n" + recentUserText(sanitizeHistory(history), 14)).trim()`,
computed from the sanitized history only. -/
def intentTextOf (body : Body) : String :=
  SP.jsTrim (SP.jsTrim body.message ++ "\n" ++
    recentUserText (sanitizeHistory body.history) 14)

/-- The candidate set the handler chooses for a request and a loaded
catalog: the composition of tokenization, expansion, scoring, ranking and
selection exactly as the handler's recommend path computes it. -/
def chosenResources (body : Body) (resources : List SP.Resource) :
    List SP.Resource :=
  let message := SP.jsTrim body.message
  let history := sanitizeHistory body.history
  let messageNorm := SP.normalize message
  let historyUserText := recentUserText history 14
  let historyNorm := SP.normalize historyUserText
  let urgency := inferUrgency messageNorm
  let intentText := SP.jsTrim (message ++ "\n" ++ historyUserText)
  let expanded := expandIntentTokens (tokenize intentText)
  let allowGendered := userIndicatedGender messageNorm historyNorm
  selectTop (rankResources resources expanded historyNorm allowGendered urgency)

end Nav


/-! # Proofs -/

namespace SP

theorem insertDesc_perm {α : Type} (key : α → Int) (x : α) (l : List α) :
    (insertDesc key x l).Perm (x :: l) := by
  induction l with
  | nil => simp [insertDesc]
  | cons y ys ih =>
    simp only [insertDesc]
    split
    · exact List.Perm.refl _
    · exact ((ih.cons y).trans (List.Perm.swap x y ys)).symm.symm

theorem sortDesc_perm {α : Type} (key : α → Int) (l : List α) :
    (sortDesc key l).Perm l := by
  induction l with
  | nil => simp [sortDesc]
  | cons x xs ih =>
    exact (insertDesc_perm key x (sortDesc key xs)).trans (ih.cons x)

theorem mem_insertDesc {α : Type} {key : α → Int} {x z : α} {l : List α} :
    z ∈ insertDesc key x l ↔ z = x ∨ z ∈ l := by
  have := (insertDesc_perm key x l).mem_iff (a := z)
  simpa using this

theorem insertDesc_pairwise {α : Type} {key : α → Int} {x : α} {l : List α}
    (h : l.Pairwise (fun a b => key b ≤ key a)) :
    (insertDesc key x l).Pairwise (fun a b => key b ≤ key a) := by
  induction l with
  | nil => simp [insertDesc]
  | cons y ys ih =>
    rw [List.pairwise_cons] at h
    simp only [insertDesc]
    split
    · rename_i hyx
      refine List.Pairwise.cons ?_ (List.Pairwise.cons h.1 h.2)
      intro z hz
      rcases List.mem_cons.mp hz with rfl | hz
      · exact hyx
      · exact le_trans (h.1 z hz) hyx
    · rename_i hyx
      push_neg at hyx
      refine List.Pairwise.cons ?_ (ih h.2)
      intro z hz
      rcases mem_insertDesc.mp hz with rfl | hz
      · exact le_of_lt hyx
      · exact h.1 z hz

theorem sortDesc_pairwise {α : Type} (key : α → Int) (l : List α) :
    (sortDesc key l).Pairwise (fun a b => key b ≤ key a) := by
  induction l with
  | nil => simp [sortDesc]
  | cons x xs ih => exact insertDesc_pairwise ih

/-- Stability: filtering a single key value out of the insertion recovers
the original relative order. -/
theorem insertDesc_filter_key {α : Type} (key : α → Int) (x : α) (l : List α)
    (s : Int) :
    (insertDesc key x l).filter (fun y => key y = s) =
      if key x = s then x :: l.filter (fun y => key y = s)
      else l.filter (fun y => key y = s) := by
  induction l with
  | nil => by_cases hx : key x = s <;> simp [insertDesc, hx]
  | cons y ys ih =>
    simp only [insertDesc]
    split
    · rename_i hyx
      by_cases hx : key x = s
      · simp [List.filter, hx]
      · simp only [List.filter_cons]
        simp [hx]
    · rename_i hyx
      push_neg at hyx
      by_cases hy : key y = s
      · have hx : ¬ key x = s := by
          intro hx; rw [hx, hy] at hyx; exact lt_irrefl _ hyx
        simp only [List.filter_cons]
        simp [hy, hx, ih]
      · simp only [List.filter_cons]
        simp [hy, ih]

theorem sortDesc_filter_key {α : Type} (key : α → Int) (l : List α) (s : Int) :
    (sortDesc key l).filter (fun y => key y = s) =
      l.filter (fun y => key y = s) := by
  induction l with
  | nil => simp [sortDesc]
  | cons x xs ih =>
    simp only [sortDesc]
    rw [insertDesc_filter_key]
    by_cases hx : key x = s
    · simp [hx, List.filter_cons, ih]
    · simp [hx, List.filter_cons, ih]

theorem sortDesc_length {α : Type} (key : α → Int) (l : List α) :
    (sortDesc key l).length = l.length :=
  (sortDesc_perm key l).length_eq

theorem parse_step_nil (b : Bool) (field : List Char) (row : List (List Char))
    (rows : List (List (List Char))) :
    parseCSVAux [] b field row rows = pushRow rows (row ++ [field]) := rfl

theorem parse_step_comma (t : List Char) (field : List Char)
    (row : List (List Char)) (rows : List (List (List Char))) :
    parseCSVAux (',' :: t) false field row rows =
      parseCSVAux t false [] (row ++ [field]) rows := by
  conv_lhs => rw [parseCSVAux.eq_def]
  simp

theorem parse_step_lf (t : List Char) (field : List Char)
    (row : List (List Char)) (rows : List (List (List Char))) :
    parseCSVAux ('\n' :: t) false field row rows =
      parseCSVAux t false [] [] (pushRow rows (row ++ [field])) := by
  conv_lhs => rw [parseCSVAux.eq_def]
  simp

theorem parse_step_plain {c : Char} (h : plainChar c) (t : List Char)
    (field : List Char) (row : List (List Char))
    (rows : List (List (List Char))) :
    parseCSVAux (c :: t) false field row rows =
      parseCSVAux t false (field ++ [c]) row rows := by
  obtain ⟨h1, h2, h3, h4⟩ := h
  conv_lhs => rw [parseCSVAux.eq_def]
  simp [h1, h2, h3, h4]

/-- Consuming a whole plain field appends it to the field accumulator. -/
theorem parse_plain_list (f : List Char) (hc : ∀ c ∈ f, plainChar c) :
    ∀ (acc t : List Char) (row : List (List Char))
      (rows : List (List (List Char))),
    parseCSVAux (f ++ t) false acc row rows =
      parseCSVAux t false (acc ++ f) row rows := by
  induction f with
  | nil => intro acc t row rows; simp
  | cons c cs ih =>
    intro acc t row rows
    have hc0 : plainChar c := hc c (by simp)
    rw [List.cons_append, parse_step_plain hc0,
      ih (fun d hd => hc d (by simp [hd]))]
    simp

/-- The last field of a comma-joined row stays in the field accumulator. -/
def accLast : List (List Char) → List Char → List Char
  | [], cur => cur
  | g :: gs, _ => accLast gs g

/-- The earlier fields of a comma-joined row get pushed onto the row. -/
def rowInit : List (List Char) → List Char → List (List Char)
  | [], _ => []
  | g :: gs, cur => cur :: rowInit gs g

theorem rowInit_accLast (fs : List (List Char)) :
    ∀ f, rowInit fs f ++ [accLast fs f] = f :: fs := by
  induction fs with
  | nil => intro f; simp [rowInit, accLast]
  | cons g gs ih => intro f; simp [rowInit, accLast, ih g]

/-- Consuming a comma-joined row from field state `acc`. -/
theorem parse_row (fs : List (List Char)) :
    ∀ (f acc : List Char) (rest : List Char) (rowAcc : List (List Char))
      (rows : List (List (List Char))),
    (∀ c ∈ f, plainChar c) → (∀ g ∈ fs, ∀ c ∈ g, plainChar c) →
    parseCSVAux (joinWith ',' (f :: fs) ++ rest) false acc rowAcc rows =
      parseCSVAux rest false (accLast fs (acc ++ f))
        (rowAcc ++ rowInit fs (acc ++ f)) rows := by
  induction fs with
  | nil =>
    intro f acc rest rowAcc rows hf _
    simp only [joinWith, accLast, rowInit, List.append_nil]
    rw [parse_plain_list f hf]
  | cons g gs ih =>
    intro f acc rest rowAcc rows hf hfs
    have : joinWith ',' (f :: g :: gs) ++ rest =
        f ++ (',' :: (joinWith ',' (g :: gs) ++ rest)) := by
      simp [joinWith]
    rw [this, parse_plain_list f hf, parse_step_comma]
    rw [ih g [] rest (rowAcc ++ [acc ++ f]) rows
      (hfs g (by simp)) (fun g' hg' c hc => hfs g' (by simp [hg']) c hc)]
    simp [accLast, rowInit]

/-- Parsing the serialisation of a well-formed table appends exactly its
rows to the row accumulator. -/
theorem parse_serializeTable (t : List (List (List Char))) :
    ∀ (rowsAcc : List (List (List Char))),
    (∀ row ∈ t, ∃ f ∈ row, f ≠ []) →
    (∀ row ∈ t, ∀ f ∈ row, ∀ c ∈ f, plainChar c) →
    parseCSVAux (serializeTable t) false [] [] rowsAcc = rowsAcc ++ t := by
  induction t with
  | nil =>
    intro rowsAcc _ _
    simp [serializeTable, joinWith, parse_step_nil, pushRow]
  | cons row t' ih =>
    intro rowsAcc hne hclean
    obtain ⟨g, hg, hgne⟩ := hne row (by simp)
    obtain ⟨f, fs, rfl⟩ : ∃ f fs, row = f :: fs := by
      cases row with
      | nil => exact absurd hg (by simp)
      | cons f fs => exact ⟨f, fs, rfl⟩
    have hrowclean : ∀ h ∈ f :: fs, ∀ c ∈ h, plainChar c :=
      fun h hh c hc => hclean _ (by simp) h hh c hc
    have hpush : pushRow rowsAcc (rowInit fs ([] ++ f) ++ [accLast fs ([] ++ f)])
        = rowsAcc ++ [f :: fs] := by
      rw [List.nil_append, rowInit_accLast]
      unfold pushRow
      rw [if_pos]
      refine List.any_eq_true.mpr ⟨g, hg, ?_⟩
      simpa using hgne
    cases t' with
    | nil =>
      simp only [serializeTable, serializeRow, List.map, joinWith]
      rw [← List.append_nil (joinWith ',' (f :: fs))]
      rw [parse_row fs f [] [] [] rowsAcc (hrowclean f (by simp))
        (fun g' hg' => hrowclean g' (by simp [hg'])), parse_step_nil]
      simpa using hpush
    | cons row2 t'' =>
      have hser : serializeTable ((f :: fs) :: row2 :: t'') =
          joinWith ',' (f :: fs) ++
            ('\n' :: serializeTable (row2 :: t'')) := by
        simp [serializeTable, serializeRow, joinWith, List.map]
      rw [hser, parse_row fs f [] _ [] rowsAcc (hrowclean f (by simp))
        (fun g' hg' => hrowclean g' (by simp [hg'])), parse_step_lf]
      rw [List.nil_append, hpush]
      rw [ih (rowsAcc ++ [f :: fs])
        (fun r hr => hne r (by simp [hr]))
        (fun r hr => hclean r (by simp [hr]))]
      simp

/-- `String.prototype.trim` is the identity on texts that neither start nor
end with whitespace. -/
theorem trimChars_eq_self {l : List Char}
    (h1 : ∀ c, l.head? = some c → jsIsSpace c = false)
    (h2 : ∀ c, l.getLast? = some c → jsIsSpace c = false) :
    trimChars l = l := by
  unfold trimChars
  have d1 : l.dropWhile jsIsSpace = l := by
    cases l with
    | nil => rfl
    | cons a as =>
      rw [List.dropWhile_cons, h1 a rfl]
      simp
  have d2 : l.reverse.dropWhile jsIsSpace = l.reverse := by
    cases hr : l.reverse with
    | nil => rfl
    | cons a as =>
      have ha : l.getLast? = some a := by
        rw [← List.head?_reverse, hr]
        rfl
      rw [List.dropWhile_cons, h2 a ha]
      simp
  rw [d1, d2, List.reverse_reverse]

end SP

/-- C2: the crisis policy filter leaves the ranked list unchanged at the
highest urgency (so a crisis-flagged candidate is never removed there);
below it, crisis resources are removed unless that would empty the list, in
which case the unfiltered ranked list is used; the filter never turns a
non-empty ranked list into an empty one. -/
theorem crisis_filter_policy (u : String) (ranked : List (SP.Resource × Int)) :
    (u = "high" → P1.applyCrisisFilter u ranked = ranked) ∧
    (u ≠ "high" →
      P1.applyCrisisFilter u ranked =
        (if (ranked.filter (fun x => !P1.isCrisisResource x.1)).isEmpty then
          ranked
         else ranked.filter (fun x => !P1.isCrisisResource x.1))) ∧
    (ranked ≠ [] → P1.applyCrisisFilter u ranked ≠ []) := by
  refine ⟨?_, ?_, ?_⟩
  · intro h
    simp [P1.applyCrisisFilter, h]
  · intro h
    simp [P1.applyCrisisFilter, h]
  · intro h
    unfold P1.applyCrisisFilter
    split
    · dsimp only
      split
      · exact h
      · rename_i hf
        simpa [List.isEmpty_iff] using hf
    · exact h

/-- Witness for C2 at a one-element ranked list containing a crisis-flagged
resource (its title contains "crisis"). -/
theorem crisis_filter_policy_witness :
    P1.applyCrisisFilter "high"
        [(⟨"9", "Crisis Line", "", "", "", "", "", "u"⟩, 5)] =
      [(⟨"9", "Crisis Line", "", "", "", "", "", "u"⟩, 5)] ∧
    P1.applyCrisisFilter "low"
        [(⟨"9", "Crisis Line", "", "", "", "", "", "u"⟩, 5)] ≠ [] :=
  ⟨(crisis_filter_policy "high" _).1 rfl,
   (crisis_filter_policy "low" _).2.2 (by decide)⟩

/-- C5: a fetched catalog whose normalised header row lacks a required
column is rejected with a `missing_column` failure naming a column that is
required and absent, and no (partial) catalog is produced. -/
theorem missing_column_fails_loud (text : String) (headerRow : List String)
    (dataRows : List (List String))
    (hparse : SP.parseCSV text = headerRow :: dataRows)
    (hmiss : ∃ c ∈ SP.requiredColumns,
      (headerRow.map SP.normalizeHeader).contains c = false) :
    ∃ c', SP.parseAndValidate text = .error (.missingColumn c') ∧
      c' ∈ SP.requiredColumns ∧
      (headerRow.map SP.normalizeHeader).contains c' = false := by
  have hsome : (SP.requiredColumns.find?
      (fun c => !(headerRow.map SP.normalizeHeader).contains c)).isSome := by
    rw [List.find?_isSome]
    obtain ⟨c, hc, hcc⟩ := hmiss
    exact ⟨c, hc, by rw [hcc]; rfl⟩
  obtain ⟨c', hc'⟩ := Option.isSome_iff_exists.mp hsome
  refine ⟨c', ?_, List.mem_of_find?_eq_some hc', ?_⟩
  · unfold SP.parseAndValidate
    rw [hparse]
    simp only
    rw [hc']
  · have := List.find?_some hc'
    simpa using this

/-- Witness for C5: a catalog whose header has the first seven required
columns but no `url` column. -/
theorem missing_column_fails_loud_witness :
    ∃ c', SP.parseAndValidate
        "id,title,description,best_for,when_to_use,not_for,fatherlessness_connection\n1,t,d,b,w,n,f"
        = .error (.missingColumn c') ∧
      c' ∈ SP.requiredColumns ∧
      (["id", "title", "description", "best_for", "when_to_use", "not_for",
        "fatherlessness_connection"].map SP.normalizeHeader).contains c'
        = false :=
  missing_column_fails_loud _
    ["id", "title", "description", "best_for", "when_to_use", "not_for",
     "fatherlessness_connection"]
    [["1", "t", "d", "b", "w", "n", "f"]]
    (by decide) ⟨"url", by decide, by decide⟩

/-- C9 counterexample: the claim restricts the table only to fields free of
the quote character.  A field containing a comma satisfies that restriction,
but comma-join serialisation followed by parsing splits it into two fields,
so the round trip is not the identity. -/
theorem parser_round_trip_counterexample :
    (∀ row ∈ [[['a', ',', 'b']]], ∀ f ∈ row, ∀ c ∈ f, c ≠ '"') ∧
    SP.parseRows (SP.serializeTable [[['a', ',', 'b']]]) ≠ [[['a', ',', 'b']]] := by
  constructor
  · decide
  · decide

/-- C9 (amended): for every table whose rows each contain at least one
non-empty field and whose fields contain neither the quote character nor
the comma, LF and CR delimiters, comma-join/newline-join serialisation
followed by the CSV parser yields exactly the original table (stated both
at the character level and through the string-level `parseCSV`). -/
theorem parser_round_trip (t : List (List (List Char)))
    (hne : ∀ row ∈ t, ∃ f ∈ row, f ≠ [])
    (hclean : ∀ row ∈ t, ∀ f ∈ row, ∀ c ∈ f, SP.plainChar c) :
    SP.parseRows (SP.serializeTable t) = t ∧
    SP.parseCSV (SP.ofChars (SP.serializeTable t)) =
      t.map (fun row => row.map SP.ofChars) := by
  have h0 : SP.parseRows (SP.serializeTable t) = t := by
    have h := SP.parse_serializeTable t [] hne hclean
    simpa [SP.parseRows] using h
  refine ⟨h0, ?_⟩
  show (SP.parseRows (SP.ofChars (SP.serializeTable t)).data).map _ = _
  rw [show (SP.ofChars (SP.serializeTable t)).data = SP.serializeTable t from rfl,
    h0]

/-- Witness for C9 at a concrete two-row table with an empty field. -/
theorem parser_round_trip_witness :
    SP.parseRows (SP.serializeTable [[['a', 'b'], []], [['c']]]) =
      [[['a', 'b'], []], [['c']]] :=
  (parser_round_trip [[['a', 'b'], []], [['c']]] (by decide) (by decide)).1

/-- C6 counterexample: the claim says the cached sequence is returned
without network access exactly when the cache is non-expired AND non-empty.
`CACHE.items` is an empty (truthy) array here and the cache is fresh, yet
the loader returns the cached empty sequence with no network access (third
component `false`), so non-emptiness is not required for a hit. -/
theorem catalog_cache_empty_hit_counterexample :
    SP.loadCatalog 6 (.ok "id,title\n1,2") ⟨5, 120000, some []⟩ =
      (.ok [], ⟨5, 120000, some []⟩, false) := rfl

/-- C6 (amended): the loader returns the cached item sequence without any
network access exactly when the cache holds a previously stored (possibly
empty) sequence and `now - loadedAt < ttl`; on a miss it touches the
network, and it replaces the cache wholesale (keeping `ttlMs`) exactly on a
fully successful fetch-parse-validate, while every failure leaves the cache
untouched. -/
theorem catalog_cache_behavior (now : Int) (fetch : SP.FetchOutcome)
    (cache : SP.Cache) :
    (∀ its, cache.items = some its → now - cache.loadedAt < cache.ttlMs →
      SP.loadCatalog now fetch cache = (.ok its, cache, false)) ∧
    ((cache.items = none ∨ ¬ now - cache.loadedAt < cache.ttlMs) →
      (SP.loadCatalog now fetch cache).2.2 = true ∧
      (∀ status body, fetch = .httpErr status body →
        SP.loadCatalog now fetch cache =
          (.error (.fetchFailed status (SP.jsSliceTo body 180)), cache, true)) ∧
      (∀ text, fetch = .ok text →
        (∀ e, SP.parseAndValidate text = .error e →
          SP.loadCatalog now fetch cache = (.error e, cache, true)) ∧
        (∀ items, SP.parseAndValidate text = .ok items →
          SP.loadCatalog now fetch cache =
            (.ok items, ⟨now, cache.ttlMs, some items⟩, true)))) := by
  have hfetch : ∀ hmiss : SP.loadCatalog now fetch cache =
        SP.loadCatalogFetch now fetch cache,
      (SP.loadCatalog now fetch cache).2.2 = true ∧
      (∀ status body, fetch = .httpErr status body →
        SP.loadCatalog now fetch cache =
          (.error (.fetchFailed status (SP.jsSliceTo body 180)), cache, true)) ∧
      (∀ text, fetch = .ok text →
        (∀ e, SP.parseAndValidate text = .error e →
          SP.loadCatalog now fetch cache = (.error e, cache, true)) ∧
        (∀ items, SP.parseAndValidate text = .ok items →
          SP.loadCatalog now fetch cache =
            (.ok items, ⟨now, cache.ttlMs, some items⟩, true))) := by
    intro hmiss
    rw [hmiss]
    refine ⟨?_, ?_, ?_⟩
    · unfold SP.loadCatalogFetch
      match fetch with
      | .httpErr status body => rfl
      | .ok text =>
        simp only
        match h : SP.parseAndValidate text with
        | .error e => rfl
        | .ok items => rfl
    · intro status body hf
      subst hf
      rfl
    · intro text hf
      subst hf
      constructor
      · intro e he
        unfold SP.loadCatalogFetch
        dsimp only
        rw [he]
      · intro items hi
        unfold SP.loadCatalogFetch
        dsimp only
        rw [hi]
  constructor
  · intro its hits hfresh
    unfold SP.loadCatalog
    rw [hits]
    simp [hfresh]
  · intro hmiss
    apply hfetch
    unfold SP.loadCatalog
    rcases hmiss with hnone | hexp
    · rw [hnone]
    · cases hits : cache.items with
      | none => rfl
      | some its => simp [hexp]

set_option maxRecDepth 10000 in
/-- Witness for C6: a fresh cache hit returns without fetching, and an
expired cache is refreshed wholesale from the fetched text. -/
theorem catalog_cache_behavior_witness :
    SP.loadCatalog 6 (.ok "x") ⟨5, 120000, some [⟨"1", "t", "", "", "", "", "", "u"⟩]⟩ =
      (.ok [⟨"1", "t", "", "", "", "", "", "u"⟩],
       ⟨5, 120000, some [⟨"1", "t", "", "", "", "", "", "u"⟩]⟩, false) ∧
    SP.loadCatalog 300000
        (.ok "id,title,description,best_for,when_to_use,not_for,fatherlessness_connection,url\n1,t,d,b,w,n,f,u")
        ⟨5, 120000, some []⟩ =
      (.ok [⟨"1", "t", "d", "b", "w", "n", "f", "u"⟩],
       ⟨300000, 120000, some [⟨"1", "t", "d", "b", "w", "n", "f", "u"⟩]⟩,
       true) :=
  ⟨(catalog_cache_behavior 6 (.ok "x") ⟨5, 120000, some [⟨"1", "t", "", "", "", "", "", "u"⟩]⟩).1
      [⟨"1", "t", "", "", "", "", "", "u"⟩] rfl (by decide),
   (((catalog_cache_behavior 300000
        (.ok "id,title,description,best_for,when_to_use,not_for,fatherlessness_connection,url\n1,t,d,b,w,n,f,u")
        ⟨5, 120000, some []⟩).2 (Or.inr (by decide))).2.2 _ rfl).2
      [⟨"1", "t", "d", "b", "w", "n", "f", "u"⟩] (by rfl)⟩

/-- C4: scoring plus selection is a pure function of the catalog snapshot
and the request context, so repeated runs coincide definitionally; in the
§4.5 selection chain (`P1.rankChain`) only strictly positive scores are
kept, the list is sorted descending by score, and candidates of equal score
keep their original catalog order (the filtered score-classes coincide);
the top revision's ranking step (`Nav.rankResources`) is likewise a stable
descending sort of the scored catalog. -/
theorem ranking_deterministic_stable :
    (∀ (resources : List SP.Resource) (queryTokens tagTokens : List String)
        (urgency : String),
      P1.rankChain resources queryTokens tagTokens urgency =
        P1.rankChain resources queryTokens tagTokens urgency ∧
      (∀ p ∈ P1.rankChain resources queryTokens tagTokens urgency, 0 < p.2) ∧
      (P1.rankChain resources queryTokens tagTokens urgency).Pairwise
        (fun a b => b.2 ≤ a.2) ∧
      (∀ s : Int,
        (P1.rankChain resources queryTokens tagTokens urgency).filter
            (fun p => p.2 = s) =
          ((resources.map (fun r =>
              (r, P1.scoreResource r queryTokens tagTokens urgency))).filter
            (fun x => 0 < x.2)).filter (fun p => p.2 = s)) ∧
      (P1.rankChain resources queryTokens tagTokens urgency).Perm
        ((resources.map (fun r =>
            (r, P1.scoreResource r queryTokens tagTokens urgency))).filter
          (fun x => 0 < x.2))) ∧
    (∀ (resources : List SP.Resource) (expanded : List String)
        (historyNorm : String) (allowGendered : Bool) (urgency : String),
      Nav.rankResources resources expanded historyNorm allowGendered urgency =
        Nav.rankResources resources expanded historyNorm allowGendered
          urgency ∧
      (Nav.rankResources resources expanded historyNorm allowGendered
          urgency).Pairwise (fun a b => b.2 ≤ a.2) ∧
      (∀ s : Int,
        (Nav.rankResources resources expanded historyNorm allowGendered
            urgency).filter (fun p => p.2 = s) =
          (resources.map (fun r =>
            (r, Nav.scoreResource r expanded historyNorm allowGendered
              urgency))).filter (fun p => p.2 = s)) ∧
      (Nav.rankResources resources expanded historyNorm allowGendered
          urgency).Perm
        (resources.map (fun r =>
          (r, Nav.scoreResource r expanded historyNorm allowGendered
            urgency)))) := by
  constructor
  · intro resources queryTokens tagTokens urgency
    have hdef : P1.rankChain resources queryTokens tagTokens urgency =
        SP.sortDesc (fun x => x.2)
          ((resources.map (fun r =>
              (r, P1.scoreResource r queryTokens tagTokens urgency))).filter
            (fun x => 0 < x.2)) := rfl
    refine ⟨rfl, ?_, ?_, ?_, ?_⟩
    · intro p hp
      rw [hdef] at hp
      have hmem :=
        (SP.sortDesc_perm (fun x : SP.Resource × Int => x.2) _).mem_iff.mp hp
      have := (List.mem_filter.mp hmem).2
      exact of_decide_eq_true this
    · rw [hdef]; exact SP.sortDesc_pairwise _ _
    · intro s; rw [hdef]; exact SP.sortDesc_filter_key _ _ s
    · rw [hdef]; exact SP.sortDesc_perm _ _
  · intro resources expanded historyNorm allowGendered urgency
    have hdef : Nav.rankResources resources expanded historyNorm allowGendered
        urgency =
        SP.sortDesc (fun x => x.2)
          (resources.map (fun r =>
            (r, Nav.scoreResource r expanded historyNorm allowGendered
              urgency))) := rfl
    refine ⟨rfl, ?_, ?_, ?_⟩
    · rw [hdef]; exact SP.sortDesc_pairwise _ _
    · intro s; rw [hdef]; exact SP.sortDesc_filter_key _ _ s
    · rw [hdef]; exact SP.sortDesc_perm _ _

/-- Witness for C4: a one-record catalog whose record matches the query
token "grief" twice (score 6) is kept with a strictly positive score. -/
theorem ranking_deterministic_stable_witness :
    (⟨⟨"1", "Grief", "grief support", "", "", "", "", "u"⟩, (6 : Int)⟩ :
        SP.Resource × Int) ∈
      P1.rankChain [⟨"1", "Grief", "grief support", "", "", "", "", "u"⟩]
        ["grief"] [] "low" ∧
    (0 : Int) <
      (⟨⟨"1", "Grief", "grief support", "", "", "", "", "u"⟩, (6 : Int)⟩ :
        SP.Resource × Int).2 :=
  ⟨by decide,
   (ranking_deterministic_stable.1
      [⟨"1", "Grief", "grief support", "", "", "", "", "u"⟩] ["grief"] []
      "low").2.1 _ (by decide)⟩

/-- Any model-call payload in the top-revision handler's effect trace is the
one built from the loaded catalog and the sanitized request: the raw
message, the trimmed intent text, and the writer views of exactly the
chosen candidate set. -/
theorem nav_handlerRun_modelCall (req : Nav.Req) (now : Int) (cache : SP.Cache)
    (fetch : SP.FetchOutcome) (model : Nav.ModelOutcome) (p : Nav.ModelPayload)
    (h : Nav.Effect.modelCall p ∈ (Nav.handlerRun req now cache fetch model).2.1) :
    ∃ resources, (SP.loadCatalog now fetch cache).1 = .ok resources ∧
      resources ≠ [] ∧
      p = ⟨SP.jsTrim req.body.message, Nav.intentTextOf req.body,
        (Nav.chosenResources req.body resources).map Nav.writerView⟩ := by
  unfold Nav.handlerRun at h
  rcases hload : SP.loadCatalog now fetch cache with ⟨e | res, cache2, fetched⟩
  · rw [hload] at h
    dsimp only at h
    repeat' split at h
    all_goals simp at h
  · rw [hload] at h
    dsimp only at h
    split at h
    · simp at h
    split at h
    · simp at h
    split at h
    · simp at h
    split at h
    · simp at h
    split at h
    · simp at h
    split at h
    · simp at h
    split at h
    · repeat' split at h
      all_goals simp at h
    · rename_i hne
      have hres : res ≠ [] := by simpa [List.isEmpty_iff] using hne
      repeat' split at h
      all_goals simp at h
      all_goals subst h
      all_goals exact ⟨res, rfl, hres, by rfl⟩

/-- `Math.max(limit, 5)` is 5 for both possible limits, so the writer pool
is always the first five ranked candidates. -/
theorem p1_topForWriterOf_eq (body : P1.Body) (res : List SP.Resource)
    (cls : P1.Classification) :
    P1.topForWriterOf body res cls =
      ((P1.rankedOf body res cls).take 5).map (fun x => x.1) := by
  unfold P1.topForWriterOf P1.limitOf
  split <;> rfl

set_option maxHeartbeats 2000000 in
/-- Any writer-call payload in the `P1` handler's effect trace carries
exactly the candidate pool `topForWriterOf` computed from the loaded
catalog and the classifier output, and that pool is non-empty. -/
theorem p1_handlerRun_writeCall (req : P1.Req) (now : Int) (cache : SP.Cache)
    (fetch : SP.FetchOutcome) (classify : P1.ClassifyOutcome)
    (write : P1.WriteOutcome) (q : P1.WritePayload)
    (h : P1.Effect.writeCall q ∈
      (P1.handlerRun req now cache fetch classify write).2.1) :
    ∃ resources cls, (SP.loadCatalog now fetch cache).1 = .ok resources ∧
      classify = .ok cls ∧
      P1.rankedOf req.body resources cls ≠ [] ∧
      q.resources = P1.topForWriterOf req.body resources cls := by
  rcases classify with cmsg | cls
  all_goals unfold P1.handlerRun at h
  all_goals rcases hload : SP.loadCatalog now fetch cache with
    ⟨e | res, cache2, fetched⟩
  all_goals rw [hload] at h
  all_goals dsimp only at h
  · repeat' split at h
    all_goals simp at h
  · repeat' split at h
    all_goals simp at h
  · repeat' split at h
    all_goals simp at h
  · split at h
    · simp at h
    split at h
    · simp at h
    split at h
    · simp at h
    split at h
    · simp at h
    split at h
    · simp at h
    split at h
    · simp at h
    split at h
    · -- ranked.isEmpty: only catalogFetch/classifyCall in the trace
      repeat' split at h
      all_goals simp at h
    · rename_i hne
      have hr : P1.rankedOf req.body res cls ≠ [] := by
        simpa [List.isEmpty_iff] using hne
      repeat' split at h
      all_goals simp at h
      all_goals subst h
      all_goals exact ⟨res, cls, rfl, rfl, hr,
        by rw [p1_topForWriterOf_eq]; simp [List.map_take]⟩

/-- C1 (amended): for every POST request with the environment configured
whose trimmed message is within the length cap and matches a crisis
regular expression, the handler terminates in the safety disposition with
the fixed, non-templated crisis response, with an empty collaborator-effect
trace (no catalog fetch, no model call) and the catalog cache untouched.
(The length-cap hypothesis is forced by the counterexample: over-long
messages are rejected before the safety gate.) -/
theorem safety_gate_short_circuits (body : Nav.Body) (now : Int)
    (cache : SP.Cache) (fetch : SP.FetchOutcome) (model : Nav.ModelOutcome)
    (hSafe : SP.triggeredSafety (SP.jsTrim body.message) = true)
    (hLen : (SP.jsTrim body.message).length ≤ Nav.MAX_MESSAGE_LENGTH) :
    Nav.handlerRun ⟨"POST", true, body⟩ now cache fetch model =
      (Nav.safetyResponse, [], cache) := by
  have hne : SP.jsTrim body.message ≠ "" := by
    intro h
    rw [h] at hSafe
    exact absurd hSafe (by decide)
  have hnl : ¬ Nav.MAX_MESSAGE_LENGTH < (SP.jsTrim body.message).length :=
    Nat.not_lt.mpr hLen
  simp only [Nav.handlerRun]
  simp [hne, hSafe, hnl]

/-- Witness for C1: the crisis message "I want to kill myself" yields the
fixed safety response and an empty effect trace. -/
theorem safety_gate_short_circuits_witness :
    Nav.handlerRun ⟨"POST", true, ⟨"I want to kill myself", []⟩⟩ 0
        ⟨0, 120000, none⟩ (.ok "") (.fail "") =
      (Nav.safetyResponse, [], ⟨0, 120000, none⟩) :=
  safety_gate_short_circuits ⟨"I want to kill myself", []⟩ 0
    ⟨0, 120000, none⟩ (.ok "") (.fail "") (by decide) (by decide)

/-- A trimmed message over the length cap is rejected with a 400 response,
an empty effect trace and an untouched cache, before the safety gate and
before any collaborator access. -/
theorem nav_overlong_rejected (body : Nav.Body) (now : Int) (cache : SP.Cache)
    (fetch : SP.FetchOutcome) (model : Nav.ModelOutcome)
    (h : Nav.MAX_MESSAGE_LENGTH < (SP.jsTrim body.message).length) :
    Nav.handlerRun ⟨"POST", true, body⟩ now cache fetch model =
      (.badRequest "Message too long", [], cache) := by
  have hne : SP.jsTrim body.message ≠ "" := by
    intro he
    rw [he] at h
    simp [Nav.MAX_MESSAGE_LENGTH] at h
  simp only [Nav.handlerRun]
  simp [hne, h]

/-- C1 counterexample: a 2003-character message that matches the crisis
regex `\b(suicide|...)\b` is rejected with a 400 "Message too long"
response — the length check runs before the safety gate, so this request
does not terminate in the safety disposition as the claim states for every
matching incoming request. -/
theorem safety_gate_overlong_crisis_counterexample :
    SP.triggeredSafety
        ("suicide " ++ SP.ofChars (List.replicate 1994 'a' ++ ['b'])) = true ∧
    Nav.handlerRun
        ⟨"POST", true,
         ⟨"suicide " ++ SP.ofChars (List.replicate 1994 'a' ++ ['b']), []⟩⟩
        0 ⟨0, 120000, none⟩ (.ok "") (.fail "") =
      (.badRequest "Message too long", [], ⟨0, 120000, none⟩) := by
  have hdata : ("suicide " ++
      SP.ofChars (List.replicate 1994 'a' ++ ['b'])).data =
      "suicide ".data ++ (List.replicate 1994 'a' ++ ['b']) := rfl
  have hlen : ("suicide " ++
      SP.ofChars (List.replicate 1994 'a' ++ ['b'])).length = 2003 := by
    show ("suicide " ++
      SP.ofChars (List.replicate 1994 'a' ++ ['b'])).data.length = 2003
    rw [hdata, List.length_append, List.length_append, List.length_replicate]
    decide
  have htrim : SP.jsTrim ("suicide " ++
      SP.ofChars (List.replicate 1994 'a' ++ ['b'])) =
      "suicide " ++ SP.ofChars (List.replicate 1994 'a' ++ ['b']) := by
    show SP.ofChars (SP.trimChars _) = _
    rw [hdata, SP.trimChars_eq_self]
    · rfl
    · intro c hc
      have hh : ("suicide ".data ++
          (List.replicate 1994 'a' ++ ['b'])).head? = some 's' := rfl
      rw [hh] at hc
      injection hc with h
      subst h
      decide
    · intro c hc
      have hb : ("suicide ".data ++
          (List.replicate 1994 'a' ++ ['b'])).getLast? = some 'b' := by
        rw [List.getLast?_append, List.getLast?_concat]
        rfl
      rw [hb] at hc
      injection hc with h
      subst h
      decide
  constructor
  · decide
  · apply nav_overlong_rejected
    rw [htrim, hlen]
    decide

/-- C8 (amended): the request caps are enforced before any processing —
the history is truncated to the last 40 entries, restricted to the two
allowed roles with contents cut to 1400 characters; the message length cap
is enforced by rejecting over-cap messages with a 400 response (not by
truncating) before the safety gate and with no collaborator effects; and
every model-call payload is built from the sanitized history only. -/
theorem request_caps_enforced :
    (∀ history : List SP.RawMsg,
      (Nav.sanitizeHistory history).length ≤ Nav.MAX_HISTORY_ITEMS ∧
      ∀ m ∈ Nav.sanitizeHistory history,
        (m.role = "user" ∨ m.role = "assistant") ∧ m.content.length ≤ 1400) ∧
    (∀ (body : Nav.Body) (now : Int) (cache : SP.Cache)
        (fetch : SP.FetchOutcome) (model : Nav.ModelOutcome),
      Nav.MAX_MESSAGE_LENGTH < (SP.jsTrim body.message).length →
        Nav.handlerRun ⟨"POST", true, body⟩ now cache fetch model =
          (.badRequest "Message too long", [], cache)) ∧
    (∀ (req : Nav.Req) (now : Int) (cache : SP.Cache)
        (fetch : SP.FetchOutcome) (model : Nav.ModelOutcome)
        (p : Nav.ModelPayload),
      Nav.Effect.modelCall p ∈
          (Nav.handlerRun req now cache fetch model).2.1 →
        p.inferred_intent_text = Nav.intentTextOf req.body) := by
  refine ⟨?_, ?_, ?_⟩
  · intro history
    constructor
    · show (List.drop _ _).length ≤ _
      rw [List.length_drop]
      omega
    · intro m hm
      have hm2 := List.mem_of_mem_drop hm
      obtain ⟨a, _, ha⟩ := List.mem_filterMap.mp hm2
      cases hac : a.content with
      | none => rw [hac] at ha; exact absurd ha (by simp)
      | some c =>
        rw [hac] at ha
        dsimp only at ha
        by_cases hrole : (a.role = "user" || a.role = "assistant") = true
        · rw [if_pos hrole] at ha
          injection ha with ha
          subst ha
          constructor
          · simpa using hrole
          · show (List.take 1400 c.data).length ≤ 1400
            rw [List.length_take]
            omega
        · rw [if_neg hrole] at ha
          exact absurd ha (by simp)
  · intro body now cache fetch model h
    exact nav_overlong_rejected body now cache fetch model h
  · intro req now cache fetch model p h
    obtain ⟨resources, _, _, hp⟩ :=
      nav_handlerRun_modelCall req now cache fetch model p h
    rw [hp]

/-- C8 counterexample: the claim says the message is truncated to the
message-length cap before the safety gate and scoring; on a 2001-character
message the handler instead rejects the request with a 400 response, so no
truncated message is ever processed. -/
theorem caps_no_truncation_counterexample :
    ("hello " ++ SP.ofChars (List.replicate 1994 'a' ++ ['b'])).length =
      2001 ∧
    Nav.handlerRun
        ⟨"POST", true,
         ⟨"hello " ++ SP.ofChars (List.replicate 1994 'a' ++ ['b']), []⟩⟩
        0 ⟨0, 120000, none⟩ (.ok "") (.fail "") =
      (.badRequest "Message too long", [], ⟨0, 120000, none⟩) := by
  have hdata : ("hello " ++
      SP.ofChars (List.replicate 1994 'a' ++ ['b'])).data =
      "hello ".data ++ (List.replicate 1994 'a' ++ ['b']) := rfl
  have hlen : ("hello " ++
      SP.ofChars (List.replicate 1994 'a' ++ ['b'])).length = 2001 := by
    show ("hello " ++
      SP.ofChars (List.replicate 1994 'a' ++ ['b'])).data.length = 2001
    rw [hdata, List.length_append, List.length_append, List.length_replicate]
    decide
  have htrim : SP.jsTrim ("hello " ++
      SP.ofChars (List.replicate 1994 'a' ++ ['b'])) =
      "hello " ++ SP.ofChars (List.replicate 1994 'a' ++ ['b']) := by
    show SP.ofChars (SP.trimChars _) = _
    rw [hdata, SP.trimChars_eq_self]
    · rfl
    · intro c hc
      have hh : ("hello ".data ++
          (List.replicate 1994 'a' ++ ['b'])).head? = some 'h' := rfl
      rw [hh] at hc
      injection hc with h
      subst h
      decide
    · intro c hc
      have hb : ("hello ".data ++
          (List.replicate 1994 'a' ++ ['b'])).getLast? = some 'b' := by
        rw [List.getLast?_append, List.getLast?_concat]
        rfl
      rw [hb] at hc
      injection hc with h
      subst h
      decide
  refine ⟨hlen, ?_⟩
  apply nav_overlong_rejected
  rw [htrim, hlen]
  decide

set_option maxRecDepth 10000 in
/-- Witness for C8: the sanitized history of a mixed raw history keeps only
the user/assistant entries, and a concrete model call's intent text is the
one computed from the sanitized history. -/
theorem request_caps_enforced_witness :
    ((⟨"user", "hi"⟩ : SP.Msg).role = "user" ∨
      (⟨"user", "hi"⟩ : SP.Msg).role = "assistant") ∧
    (⟨"user", "hi"⟩ : SP.Msg).content.length ≤ 1400 ∧
    ("mentor" : String) =
      Nav.intentTextOf ⟨"mentor", [⟨"system", some "x"⟩]⟩ := by
  refine ⟨?_, ?_, ?_⟩
  · exact ((request_caps_enforced.1
      [⟨"user", some "hi"⟩, ⟨"system", some "x"⟩]).2 ⟨"user", "hi"⟩
      (by decide)).1
  · exact ((request_caps_enforced.1
      [⟨"user", some "hi"⟩, ⟨"system", some "x"⟩]).2 ⟨"user", "hi"⟩
      (by decide)).2
  · exact request_caps_enforced.2.2
      ⟨"POST", true, ⟨"mentor", [⟨"system", some "x"⟩]⟩⟩ 0
      ⟨0, 120000, some [⟨"1", "Mentor", "mentor support", "", "", "", "", "u"⟩]⟩
      (.ok "") (.ok ⟨"", none⟩)
      ⟨"mentor", "mentor",
       [⟨"1", "Mentor", "mentor support", "", "", "", ""⟩]⟩
      (by decide)

/-- The selection step never returns more than three resources. -/
theorem nav_selectTop_length_le (ranked : List (SP.Resource × Int)) :
    (Nav.selectTop ranked).length ≤ 3 := by
  unfold Nav.selectTop
  dsimp only
  split
  · split
    · simp [List.length_take]
    · simp [List.length_take]
  · simp [List.length_take]

set_option maxHeartbeats 2000000 in
/-- C3: the Candidate Selector returns at most 3 resources in its final
result, regardless of how many records score positively — for the top
revision's selection step and final 200 response, and for the `P1`
revision's clipped card list and recommendations response. -/
theorem selector_bounded :
    (∀ ranked : List (SP.Resource × Int), (Nav.selectTop ranked).length ≤ 3) ∧
    (∀ (out : List P1.WRes) (tfw : List SP.Resource) (cls : P1.Classification)
        (body : P1.Body),
      ((out.take (P1.limitOf cls body)).map (P1.buildCard tfw)).length ≤ 3) ∧
    (∀ (req : Nav.Req) (now : Int) (cache : SP.Cache) (fetch : SP.FetchOutcome)
        (model : Nav.ModelOutcome) (intro : String) (paras : List String)
        (ress : List Nav.OutRes),
      (Nav.handlerRun req now cache fetch model).1 = .ok intro paras ress →
        ress.length ≤ 3) ∧
    (∀ (req : P1.Req) (now : Int) (cache : SP.Cache) (fetch : SP.FetchOutcome)
        (classify : P1.ClassifyOutcome) (write : P1.WriteOutcome)
        (intro : String) (cq : Option String) (ress : List P1.Card),
      (P1.handlerRun req now cache fetch classify write).1 =
          .recommendations intro cq ress →
        ress.length ≤ 3) := by
  refine ⟨nav_selectTop_length_le, ?_, ?_, ?_⟩
  · intro out tfw cls body
    rw [List.length_map, List.length_take]
    unfold P1.limitOf
    split <;> omega
  · intro req now cache fetch model intro paras ress h
    unfold Nav.handlerRun at h
    rcases hload : SP.loadCatalog now fetch cache with ⟨e | res, cache2, fetched⟩
    · rw [hload] at h
      dsimp only at h
      repeat' split at h
      all_goals simp [Nav.safetyResponse, Nav.serverErrorOf] at h
    · rw [hload] at h
      dsimp only at h
      repeat' split at h
      all_goals simp [Nav.safetyResponse, Nav.serverErrorOf] at h
      all_goals obtain ⟨h1, h2, h3⟩ := h
      all_goals subst h3
      all_goals first
        | exact nav_selectTop_length_le _
        | (rw [List.length_map]; exact nav_selectTop_length_le _)
        | simp
  · intro req now cache fetch classify write intro cq ress h
    rcases classify with cmsg | cls
    all_goals unfold P1.handlerRun at h
    all_goals rcases hload : SP.loadCatalog now fetch cache with
      ⟨e | res, cache2, fetched⟩
    all_goals rw [hload] at h
    all_goals dsimp only at h
    all_goals repeat' split at h
    all_goals simp [P1.safetyResponse, P1.noMatchResponse,
      P1.serverErrorResponse] at h
    all_goals obtain ⟨h1, h2, h3⟩ := h
    all_goals subst h3
    all_goals simp [List.length_take]

/-- On a non-empty ranked list the selection step returns at least one
resource (the two fallbacks guarantee this). -/
theorem nav_selectTop_length_ge (ranked : List (SP.Resource × Int))
    (hne : ranked ≠ []) : 1 ≤ (Nav.selectTop ranked).length := by
  have hlen : 0 < ranked.length := List.length_pos.mpr hne
  unfold Nav.selectTop
  dsimp only
  split
  · split
    · rename_i ht2
      simp [List.length_take]
      omega
    · rename_i ht2
      simp only [List.isEmpty_iff] at ht2
      exact List.length_pos.mpr ht2
  · rename_i htop
    simp only [List.isEmpty_iff] at htop
    exact List.length_pos.mpr htop

set_option maxHeartbeats 1000000 in
/-- C10: in the top revision, a non-empty catalog always yields a ranked
list of the same length, and on any non-empty ranked list the selection
step returns between 1 and 3 resources: the candidates scoring at least 8
if any, else the first up-to-3 non-crisis ranked candidates, else the first
up-to-3 ranked candidates; accordingly every model-call payload in the
handler's trace carries between 1 and 3 resources. -/
theorem fallback_selection :
    (∀ (resources : List SP.Resource) (expanded : List String)
        (historyNorm : String) (allowGendered : Bool) (urgency : String),
      resources ≠ [] →
      Nav.rankResources resources expanded historyNorm allowGendered
        urgency ≠ []) ∧
    (∀ ranked : List (SP.Resource × Int), ranked ≠ [] →
      1 ≤ (Nav.selectTop ranked).length ∧
      (Nav.selectTop ranked).length ≤ 3 ∧
      (ranked.filter (fun x => 8 ≤ x.2) ≠ [] →
        Nav.selectTop ranked =
          ((ranked.filter (fun x => 8 ≤ x.2)).take 3).map (fun x => x.1)) ∧
      (ranked.filter (fun x => 8 ≤ x.2) = [] →
        ranked.filter (fun x => !Nav.isCrisisResource x.1) ≠ [] →
        Nav.selectTop ranked =
          ((ranked.filter (fun x => !Nav.isCrisisResource x.1)).take 3).map
            (fun x => x.1)) ∧
      (ranked.filter (fun x => 8 ≤ x.2) = [] →
        ranked.filter (fun x => !Nav.isCrisisResource x.1) = [] →
        Nav.selectTop ranked = (ranked.take 3).map (fun x => x.1))) ∧
    (∀ (req : Nav.Req) (now : Int) (cache : SP.Cache) (fetch : SP.FetchOutcome)
        (model : Nav.ModelOutcome) (p : Nav.ModelPayload),
      Nav.Effect.modelCall p ∈
          (Nav.handlerRun req now cache fetch model).2.1 →
        1 ≤ p.resources.length ∧ p.resources.length ≤ 3) := by
  have hranklen : ∀ (resources : List SP.Resource) (expanded : List String)
      (historyNorm : String) (allowGendered : Bool) (urgency : String),
      (Nav.rankResources resources expanded historyNorm allowGendered
        urgency).length = resources.length := by
    intro resources expanded historyNorm allowGendered urgency
    unfold Nav.rankResources
    rw [SP.sortDesc_length, List.length_map]
  have hrankne : ∀ (resources : List SP.Resource) (expanded : List String)
      (historyNorm : String) (allowGendered : Bool) (urgency : String),
      resources ≠ [] →
      Nav.rankResources resources expanded historyNorm allowGendered
        urgency ≠ [] := by
    intro resources expanded historyNorm allowGendered urgency hres hnil
    apply hres
    have h0 := congrArg List.length hnil
    rw [hranklen] at h0
    exact List.length_eq_zero.mp h0
  refine ⟨hrankne, ?_, ?_⟩
  · intro ranked hne
    have hlen : 0 < ranked.length := List.length_pos.mpr hne
    by_cases h1 : ranked.filter (fun x => 8 ≤ x.2) = []
    · by_cases h2 : ranked.filter (fun x => !Nav.isCrisisResource x.1) = []
      · have hsel : Nav.selectTop ranked = (ranked.take 3).map (fun x => x.1) := by
          unfold Nav.selectTop
          simp [h1, h2]
        refine ⟨?_, ?_, ?_, ?_, ?_⟩
        · rw [hsel]
          simp [List.length_take]
          omega
        · rw [hsel]
          simp [List.length_take]
        · intro hc
          exact absurd h1 hc
        · intro _ hc
          exact absurd h2 hc
        · intro _ _
          exact hsel
      · have hsel : Nav.selectTop ranked =
            ((ranked.filter (fun x => !Nav.isCrisisResource x.1)).take 3).map
              (fun x => x.1) := by
          unfold Nav.selectTop
          have htop0 : (((ranked.filter (fun x => 8 ≤ x.2)).take 3).map
              (fun x => x.1)).isEmpty = true := by
            simp [h1]
          rw [if_pos htop0]
          dsimp only
          have ht2 : ¬ (((ranked.filter
              (fun x => !Nav.isCrisisResource x.1)).take 3).map
              (fun x => x.1)).isEmpty = true := by
            simp only [List.isEmpty_iff, List.map_eq_nil_iff,
              List.take_eq_nil_iff]
            rintro (hh | hh) <;>
              first
                | exact h2 hh
                | exact absurd hh (by decide)
          rw [if_neg ht2]
        have hl2 : 0 < (ranked.filter
            (fun x => !Nav.isCrisisResource x.1)).length :=
          List.length_pos.mpr h2
        refine ⟨?_, ?_, ?_, ?_, ?_⟩
        · rw [hsel]
          simp [List.length_take]
          omega
        · rw [hsel]
          simp [List.length_take]
        · intro hc
          exact absurd h1 hc
        · intro _ _
          exact hsel
        · intro _ hc
          exact absurd hc h2
    · have htop : ¬ (((ranked.filter (fun x => 8 ≤ x.2)).take 3).map
          (fun x => x.1)).isEmpty = true := by
        simp [List.isEmpty_iff, List.take_eq_nil_iff, h1]
      have hsel : Nav.selectTop ranked =
          ((ranked.filter (fun x => 8 ≤ x.2)).take 3).map (fun x => x.1) := by
        unfold Nav.selectTop
        rw [if_neg htop]
      have hl1 : 0 < (ranked.filter (fun x => 8 ≤ x.2)).length :=
        List.length_pos.mpr h1
      refine ⟨?_, ?_, ?_, ?_, ?_⟩
      · rw [hsel]
        simp [List.length_take]
        omega
      · rw [hsel]
        simp [List.length_take]
      · intro _
        exact hsel
      · intro hc
        exact absurd hc h1
      · intro hc
        exact absurd hc h1
  · intro req now cache fetch model p h
    obtain ⟨res, hload, hres, hp⟩ :=
      nav_handlerRun_modelCall req now cache fetch model p h
    subst hp
    constructor
    · show 1 ≤ ((Nav.chosenResources req.body res).map Nav.writerView).length
      rw [List.length_map]
      exact nav_selectTop_length_ge _ (hrankne res _ _ _ _ hres)
    · show ((Nav.chosenResources req.body res).map Nav.writerView).length ≤ 3
      rw [List.length_map]
      exact nav_selectTop_length_le _

set_option maxRecDepth 10000 in
/-- Witness for C3: a concrete run of the top-revision handler answers with
one resource, within the bound. -/
theorem selector_bounded_witness :
    ([⟨"Mentor", "u", ""⟩] : List Nav.OutRes).length ≤ 3 :=
  selector_bounded.2.2.1 ⟨"POST", true, ⟨"mentor", []⟩⟩ 0
    ⟨0, 120000, some [⟨"1", "Mentor", "mentor support", "", "", "", "", "u"⟩]⟩
    (.ok "") (.ok ⟨"", none⟩) Nav.defaultIntro
    [Nav.buildParagraphFromCard
      ⟨"1", "Mentor", "mentor support", "", "", "", "", "u"⟩
      (Nav.mkFields ⟨"", "", "", ""⟩
        ⟨"1", "Mentor", "mentor support", "", "", "", "", "u"⟩)]
    [⟨"Mentor", "u", ""⟩] (by decide)

set_option maxRecDepth 10000 in
/-- Witness for C10: a one-record ranked list with a low score still
produces a selection of one resource, and a concrete model call of the
handler carries exactly one resource. -/
theorem fallback_selection_witness :
    (1 ≤ (Nav.selectTop [(⟨"1", "Helper", "", "", "", "", "", "u"⟩, 2)]).length ∧
      (Nav.selectTop [(⟨"1", "Helper", "", "", "", "", "", "u"⟩, 2)]).length ≤ 3) ∧
    (1 ≤ (Nav.ModelPayload.mk "mentor" "mentor"
        [⟨"1", "Mentor", "mentor support", "", "", "", ""⟩]).resources.length ∧
      (Nav.ModelPayload.mk "mentor" "mentor"
        [⟨"1", "Mentor", "mentor support", "", "", "", ""⟩]).resources.length ≤ 3) :=
  ⟨⟨(fallback_selection.2.1 [(⟨"1", "Helper", "", "", "", "", "", "u"⟩, 2)]
      (by decide)).1,
    (fallback_selection.2.1 [(⟨"1", "Helper", "", "", "", "", "", "u"⟩, 2)]
      (by decide)).2.1⟩,
   fallback_selection.2.2 ⟨"POST", true, ⟨"mentor", []⟩⟩ 0
    ⟨0, 120000, some [⟨"1", "Mentor", "mentor support", "", "", "", "", "u"⟩]⟩
    (.ok "") (.ok ⟨"", none⟩)
    ⟨"mentor", "mentor", [⟨"1", "Mentor", "mentor support", "", "", "", ""⟩]⟩
    (by decide)⟩

/-- Membership in the crisis-filtered list implies membership in the
unfiltered ranked list. -/
theorem p1_mem_applyCrisisFilter {u : String} {l : List (SP.Resource × Int)}
    {x : SP.Resource × Int} (h : x ∈ P1.applyCrisisFilter u l) : x ∈ l := by
  unfold P1.applyCrisisFilter at h
  split at h
  · dsimp only at h
    split at h
    · exact h
    · exact List.mem_of_mem_filter h
  · exact h

/-- Every member of the `P1` ranking chain carries a strictly positive
score and arises from the scored catalog. -/
theorem p1_rankChain_mem {resources : List SP.Resource}
    {queryTokens tagTokens : List String} {u : String}
    {x : SP.Resource × Int}
    (h : x ∈ P1.rankChain resources queryTokens tagTokens u) :
    0 < x.2 ∧ x ∈ (resources.map (fun r =>
      (r, P1.scoreResource r queryTokens tagTokens u))) := by
  have hmem := (SP.sortDesc_perm (fun y : SP.Resource × Int => y.2) _).mem_iff.mp h
  have hf := List.mem_filter.mp hmem
  exact ⟨of_decide_eq_true hf.2, hf.1⟩

set_option maxHeartbeats 1000000 in
/-- C7: the text rewriter is only ever given the resources the Selector
chose: in the top revision the model-call payload's resource list is
exactly the writer views of the chosen candidate set, and in the `P1`
revision the writer-call payload is exactly `topForWriterOf` — the first
five crisis-filtered ranked candidates — every one of which scored
strictly positively, so nothing outside the selected, positively scored
ranked list (in particular no other part of the unfiltered catalog)
reaches the rewriter. -/
theorem rewriter_input_confined :
    (∀ (req : Nav.Req) (now : Int) (cache : SP.Cache) (fetch : SP.FetchOutcome)
        (model : Nav.ModelOutcome) (p : Nav.ModelPayload),
      Nav.Effect.modelCall p ∈
          (Nav.handlerRun req now cache fetch model).2.1 →
        ∃ resources, (SP.loadCatalog now fetch cache).1 = .ok resources ∧
          p.resources =
            (Nav.chosenResources req.body resources).map Nav.writerView ∧
          ∀ v ∈ p.resources, ∃ r ∈ Nav.chosenResources req.body resources,
            v = Nav.writerView r) ∧
    (∀ (req : P1.Req) (now : Int) (cache : SP.Cache) (fetch : SP.FetchOutcome)
        (classify : P1.ClassifyOutcome) (write : P1.WriteOutcome)
        (q : P1.WritePayload),
      P1.Effect.writeCall q ∈
          (P1.handlerRun req now cache fetch classify write).2.1 →
        ∃ resources cls,
          (SP.loadCatalog now fetch cache).1 = .ok resources ∧
          classify = .ok cls ∧
          q.resources = P1.topForWriterOf req.body resources cls ∧
          ∀ r ∈ q.resources, ∃ s : Int,
            (r, s) ∈ P1.rankChain resources (P1.queryTokensOf req.body)
              (P1.tokenize (String.intercalate " " cls.need_tags))
              (P1.urgencyOf cls) ∧ 0 < s) := by
  constructor
  · intro req now cache fetch model p h
    obtain ⟨res, hload, _, hp⟩ :=
      nav_handlerRun_modelCall req now cache fetch model p h
    refine ⟨res, hload, by rw [hp], ?_⟩
    intro v hv
    rw [hp] at hv
    obtain ⟨r, hr, hrv⟩ := List.mem_map.mp hv
    exact ⟨r, hr, hrv.symm⟩
  · intro req now cache fetch classify write q h
    obtain ⟨res, cls, hload, hcls, _, hq⟩ :=
      p1_handlerRun_writeCall req now cache fetch classify write q h
    refine ⟨res, cls, hload, hcls, hq, ?_⟩
    intro r hr
    rw [hq] at hr
    unfold P1.topForWriterOf at hr
    obtain ⟨x, hx, hxr⟩ := List.mem_map.mp hr
    have hx2 : x ∈ P1.rankedOf req.body res cls := List.take_subset _ _ hx
    have hx3 := p1_mem_applyCrisisFilter hx2
    have hx4 := p1_rankChain_mem hx3
    refine ⟨x.2, ?_, hx4.1⟩
    rw [← hxr]
    exact hx3

set_option maxRecDepth 10000 in
/-- Witness for C7: in a concrete run of the top-revision handler the model
call carries exactly the writer view of the one chosen resource. -/
theorem rewriter_input_confined_witness :
    ∃ resources,
      (SP.loadCatalog 0 (.ok "")
          ⟨0, 120000,
            some [⟨"1", "Mentor", "mentor support", "", "", "", "", "u"⟩]⟩).1 =
        .ok resources ∧
      (Nav.ModelPayload.mk "mentor" "mentor"
          [⟨"1", "Mentor", "mentor support", "", "", "", ""⟩]).resources =
        (Nav.chosenResources ⟨"mentor", []⟩ resources).map Nav.writerView ∧
      ∀ v ∈ (Nav.ModelPayload.mk "mentor" "mentor"
          [⟨"1", "Mentor", "mentor support", "", "", "", ""⟩]).resources,
        ∃ r ∈ Nav.chosenResources ⟨"mentor", []⟩ resources,
          v = Nav.writerView r :=
  rewriter_input_confined.1 ⟨"POST", true, ⟨"mentor", []⟩⟩ 0
    ⟨0, 120000, some [⟨"1", "Mentor", "mentor support", "", "", "", "", "u"⟩]⟩
    (.ok "") (.ok ⟨"", none⟩)
    ⟨"mentor", "mentor", [⟨"1", "Mentor", "mentor support", "", "", "", ""⟩]⟩
    (by decide)
